import Mathlib

/-!
LightNVM NVMe shim (`drivers/nvme/host/lightnvm.c`).

A shallow embedding of the wire structures, of the admin operations and of the
I/O submission path of the driver, followed by theorems about them.

Conventions of the embedding:

* a C array or byte buffer is a map from index to element (`Nat → α`); a
  `memcpy` of `n` bytes overwrites the indices below `n` and nothing else;
* unsigned machine integers are `Nat` with the reduction modulo `2 ^ w` written
  where the C arithmetic can wrap; a byte is a `Fin 256`;
* a `__le16` / `__le32` field of a device response is kept as its bytes in
  memory order, and `le16_to_cpu` / `le32_to_cpu` decode them;
* the transport (`nvme_submit_sync_cmd`), the allocator and the caller's
  callback are parameters of the operation that uses them;
* a command that is handed to the transport without a response buffer is kept
  as its 64 bytes, written member by member at the offsets of its layout;
* `int` results are `Int`.
-/

namespace LightNVM

/-! ## C structure layouts -/

/-- One member of a C structure: its name, its alignment requirement and the
number of bytes it occupies. -/
structure CField where
  name : String
  align : Nat
  size : Nat
deriving DecidableEq, Repr

/-- A scalar member of `w` bytes (`__u8`, `__le16`, `__le32`, `__le64`, ...). -/
def CField.scalar (name : String) (w : Nat) : CField := ⟨name, w, w⟩

/-- An array member: `n` elements of `w` bytes each. -/
def CField.array (name : String) (w n : Nat) : CField := ⟨name, w, w * n⟩

/-- Round `off` up to the next multiple of `a`. -/
def alignUp (off a : Nat) : Nat := (off + a - 1) / a * a

/-- Offsets of the members, in declaration order, starting at offset `off`.
In a `__packed` structure no member is aligned. -/
def layoutFrom (packed : Bool) : Nat → List CField → List (String × Nat)
  | _, [] => []
  | off, f :: fs =>
    let o := if packed then off else alignUp off f.align
    (f.name, o) :: layoutFrom packed (o + f.size) fs

/-- The offset at which the members end (before tail padding). -/
def endFrom (packed : Bool) : Nat → List CField → Nat
  | off, [] => off
  | off, f :: fs =>
    let o := if packed then off else alignUp off f.align
    endFrom packed (o + f.size) fs

/-- Alignment of a structure: the largest member alignment (1 when packed). -/
def structAlign (packed : Bool) (fs : List CField) : Nat :=
  if packed then 1 else fs.foldl (fun a f => max a f.align) 1

/-- The C `sizeof` of a structure with members `fs`. -/
def sizeofStruct (packed : Bool) (fs : List CField) : Nat :=
  alignUp (endFrom packed 0 fs) (structAlign packed fs)

/-- The C `offsetof` of member `name`. -/
def offsetof (packed : Bool) (fs : List CField) (name : String) : Option Nat :=
  ((layoutFrom packed 0 fs).find? (fun p => p.1 == name)).map Prod.snd

/-- Sum of the member sizes: what the structure occupies without any padding. -/
def fieldBytes (fs : List CField) : Nat := (fs.map CField.size).sum

/-- A nested structure used as a member. -/
def CField.nested (name : String) (packed : Bool) (fs : List CField) : CField :=
  ⟨name, structAlign packed fs, sizeofStruct packed fs⟩

/-! ### The command variants -/

namespace Layout

def nvme_nvm_hb_rw : List CField :=
  [ .scalar "opcode" 1, .scalar "flags" 1, .scalar "command_id" 2, .scalar "nsid" 4,
    .scalar "rsvd2" 8, .scalar "metadata" 8, .scalar "prp1" 8, .scalar "prp2" 8,
    .scalar "spba" 8, .scalar "length" 2, .scalar "control" 2, .scalar "dsmgmt" 4,
    .scalar "slba" 8 ]

def nvme_nvm_ph_rw : List CField :=
  [ .scalar "opcode" 1, .scalar "flags" 1, .scalar "command_id" 2, .scalar "nsid" 4,
    .scalar "rsvd2" 8, .scalar "metadata" 8, .scalar "prp1" 8, .scalar "prp2" 8,
    .scalar "spba" 8, .scalar "length" 2, .scalar "control" 2, .scalar "dsmgmt" 4,
    .scalar "resv" 8 ]

def nvme_nvm_identity : List CField :=
  [ .scalar "opcode" 1, .scalar "flags" 1, .scalar "command_id" 2, .scalar "nsid" 4,
    .array "rsvd" 8 2, .scalar "prp1" 8, .scalar "prp2" 8, .scalar "chnl_off" 4,
    .array "rsvd11" 4 5 ]

def nvme_nvm_l2ptbl : List CField :=
  [ .scalar "opcode" 1, .scalar "flags" 1, .scalar "command_id" 2, .scalar "nsid" 4,
    .array "cdw2" 4 4, .scalar "prp1" 8, .scalar "prp2" 8, .scalar "slba" 8,
    .scalar "nlb" 4, .array "cdw14" 2 6 ]

def nvme_nvm_getbbtbl : List CField :=
  [ .scalar "opcode" 1, .scalar "flags" 1, .scalar "command_id" 2, .scalar "nsid" 4,
    .array "rsvd" 8 2, .scalar "prp1" 8, .scalar "prp2" 8, .scalar "spba" 8,
    .array "rsvd4" 4 4 ]

def nvme_nvm_setbbtbl : List CField :=
  [ .scalar "opcode" 1, .scalar "flags" 1, .scalar "command_id" 2, .scalar "nsid" 4,
    .array "rsvd" 8 2, .scalar "prp1" 8, .scalar "prp2" 8, .scalar "spba" 8,
    .scalar "nlb" 2, .scalar "value" 1, .scalar "rsvd3" 1, .array "rsvd4" 4 3 ]

def nvme_nvm_erase_blk : List CField :=
  [ .scalar "opcode" 1, .scalar "flags" 1, .scalar "command_id" 2, .scalar "nsid" 4,
    .array "rsvd" 8 2, .scalar "prp1" 8, .scalar "prp2" 8, .scalar "spba" 8,
    .scalar "length" 2, .scalar "control" 2, .scalar "dsmgmt" 4, .scalar "resv" 8 ]

/-- The seven command variants this file declares inside the union
`struct nvme_nvm_command`. -/
def nvme_nvm_command_variants : List (List CField) :=
  [ nvme_nvm_identity, nvme_nvm_hb_rw, nvme_nvm_ph_rw, nvme_nvm_l2ptbl,
    nvme_nvm_getbbtbl, nvme_nvm_setbbtbl, nvme_nvm_erase_blk ]

/-! ### The response structures -/

def nvme_nvm_lp_mlc : List CField :=
  [ .scalar "num_pairs" 2, .array "pairs" 1 886 ]

def nvme_nvm_lp_tbl : List CField :=
  [ .array "id" 1 8, .nested "mlc" false nvme_nvm_lp_mlc ]

/-- Declared `__packed`. -/
def nvme_nvm_id_group : List CField :=
  [ .scalar "mtype" 1, .scalar "fmtype" 1, .scalar "res16" 2, .scalar "num_ch" 1,
    .scalar "num_lun" 1, .scalar "num_pln" 1, .scalar "rsvd1" 1, .scalar "num_blk" 2,
    .scalar "num_pg" 2, .scalar "fpg_sz" 2, .scalar "csecs" 2, .scalar "sos" 2,
    .scalar "rsvd2" 2, .scalar "trdt" 4, .scalar "trdm" 4, .scalar "tprt" 4,
    .scalar "tprm" 4, .scalar "tbet" 4, .scalar "tbem" 4, .scalar "mpos" 4,
    .scalar "mccap" 4, .scalar "cpar" 2, .array "reserved" 1 10,
    .nested "lptbl" false nvme_nvm_lp_tbl ]

/-- Declared `__packed`. -/
def nvme_nvm_addr_format : List CField :=
  [ .scalar "ch_offset" 1, .scalar "ch_len" 1, .scalar "lun_offset" 1, .scalar "lun_len" 1,
    .scalar "pln_offset" 1, .scalar "pln_len" 1, .scalar "blk_offset" 1, .scalar "blk_len" 1,
    .scalar "pg_offset" 1, .scalar "pg_len" 1, .scalar "sect_offset" 1, .scalar "sect_len" 1,
    .array "res" 1 4 ]

/-- Declared `__packed`. -/
def nvme_nvm_id : List CField :=
  [ .scalar "ver_id" 1, .scalar "vmnt" 1, .scalar "cgrps" 1, .scalar "res" 1,
    .scalar "cap" 4, .scalar "dom" 4, .nested "ppaf" true nvme_nvm_addr_format,
    .array "resv" 1 228,
    ⟨"groups", structAlign true nvme_nvm_id_group, 4 * sizeofStruct true nvme_nvm_id_group⟩ ]

def nvme_nvm_bb_tbl : List CField :=
  [ .array "tblid" 1 4, .scalar "verid" 2, .scalar "revid" 2, .scalar "rvsd1" 4,
    .scalar "tblks" 4, .scalar "tfact" 4, .scalar "tgrown" 4, .scalar "tdresv" 4,
    .scalar "thresv" 4, .array "rsvd2" 4 8, .array "blk" 1 0 ]

end Layout

/-- The offset of a member that the structure has. -/
def fieldOff (packed : Bool) (fs : List CField) (name : String) : Nat :=
  (offsetof packed fs name).getD 0

/-- The first four members of a layout, with offset and size. -/
def headerOf (fs : List CField) : List (String × Nat × Nat) :=
  ((layoutFrom false 0 fs).zip fs).take 4 |>.map (fun p => (p.1.1, p.1.2, p.2.size))

/-! ## Bytes and buffers -/

/-- A byte. -/
abbrev u8 := Fin 256

/-- The byte of an ASCII character. -/
def ascii (c : Char) : u8 := ⟨c.toNat % 256, Nat.mod_lt _ (by decide)⟩

/-- A `__le16` member: its two bytes in memory order. -/
structure le16 where
  b0 : u8
  b1 : u8
deriving DecidableEq, Repr

/-- A `__le32` member: its four bytes in memory order. -/
structure le32 where
  b0 : u8
  b1 : u8
  b2 : u8
  b3 : u8
deriving DecidableEq, Repr

/-- `le16_to_cpu`. -/
def le16_to_cpu (x : le16) : Nat := x.b0.val + 2 ^ 8 * x.b1.val

/-- `le32_to_cpu`. -/
def le32_to_cpu (x : le32) : Nat :=
  x.b0.val + 2 ^ 8 * x.b1.val + 2 ^ 16 * x.b2.val + 2 ^ 24 * x.b3.val

/-- The `__le16` member found at byte offset `off` of a buffer. -/
def le16_at (buf : Nat → u8) (off : Nat) : le16 := ⟨buf off, buf (off + 1)⟩

/-- The `__le32` member found at byte offset `off` of a buffer. -/
def le32_at (buf : Nat → u8) (off : Nat) : le32 :=
  ⟨buf off, buf (off + 1), buf (off + 2), buf (off + 3)⟩

/-- `memcpy(dst, src, n)`: the contents of `dst` afterwards. -/
def memcpy {α : Type} (dst src : Nat → α) (n : Nat) : Nat → α :=
  fun i => if i < n then src i else dst i

/-! ## Status codes -/

/-- Modelled from the spec: the interrupted status of a rejected table transfer.
`EINTR` is declared in errno-base.h, outside this file, as 4. -/
def EINTR : Int := 4

/-- Modelled from the spec: the I/O error of a failed transport round trip.
`EIO` is declared in errno-base.h, outside this file, as 5. -/
def EIO : Int := 5

/-- Modelled from the spec: the allocation failure. `ENOMEM` is declared in
errno-base.h, outside this file, as 12. -/
def ENOMEM : Int := 12

/-- Modelled from the spec: the format or validation failure. `EINVAL` is
declared in errno-base.h, outside this file, as 22. -/
def EINVAL : Int := 22

/-! ## Table transfer (`nvme_nvm_get_l2p_tbl`) -/

/-- The members of `struct nvme_nvm_l2ptbl` that the driver sets, as the values
the `__le` members encode; every other member stays zero (`c = {}`). -/
structure Wire.nvme_nvm_l2ptbl where
  opcode : Nat
  nsid : Nat
  slba : Nat
  nlb : Nat
deriving DecidableEq, Repr

/-- `nvme_nvm_admin_get_l2p_tbl`. -/
def nvme_nvm_admin_get_l2p_tbl : Nat := 0xea

/-- What `nvme_nvm_get_l2p_tbl` does to the outside, in program order. -/
inductive L2pEvent where
  /-- One `nvme_submit_sync_cmd` with the command as it stands at the call. -/
  | submit (c : Wire.nvme_nvm_l2ptbl)
  /-- One call `update_l2p(cmd_slba, cmd_nlb, entries, priv)`. -/
  | update (cmd_slba cmd_nlb : Nat)
deriving DecidableEq, Repr

/-- The surroundings of one call of `nvme_nvm_get_l2p_tbl`. The transport and
the callback are indexed by the loop iteration in which they are called, so that
they may answer differently from one call to the next. -/
structure L2pEnv where
  /-- Whether `kmalloc(len, GFP_KERNEL)` returns a buffer. -/
  kmalloc_ok : Bool
  /-- The code `nvme_submit_sync_cmd` returns in iteration `i` for command `c`
  and a buffer of `len` bytes, and the 64-bit entries then found in the buffer. -/
  submit : (i : Nat) → (c : Wire.nvme_nvm_l2ptbl) → (len : Nat) → Int × (Nat → Nat)
  /-- The value `update_l2p` returns in iteration `i`. -/
  update_l2p : (i : Nat) → (cmd_slba cmd_nlb : Nat) → (entries : Nat → Nat) → Int

/-- `u32 len = queue_max_hw_sectors(ns->ctrl->admin_q) << 9`. -/
def l2p_len (max_hw_sectors : Nat) : Nat := (max_hw_sectors * 2 ^ 9) % 2 ^ 32

/-- `u32 nlb_pr_rq = len / sizeof(u64)`. -/
def l2p_nlb_pr_rq (max_hw_sectors : Nat) : Nat := l2p_len max_hw_sectors / 8

/-- The loop `while (nlb) { ... }` of `nvme_nvm_get_l2p_tbl`, from iteration `i`,
with the current `cmd_slba`, `nlb` and `ret`. One unit of fuel is one iteration;
`none` means the fuel ran out before the loop was left. -/
def get_l2p_loop (env : L2pEnv) (len nlb_pr_rq : Nat) :
    (fuel : Nat) → (i : Nat) → (c : Wire.nvme_nvm_l2ptbl) → (cmd_slba nlb : Nat) → (ret : Int) →
    Option (Int × List L2pEvent)
  | 0, _, _, _, nlb, ret => if nlb = 0 then some (ret, []) else none
  | fuel + 1, i, c, cmd_slba, nlb, ret =>
    if nlb = 0 then some (ret, []) else
    let cmd_nlb := min nlb_pr_rq nlb
    let c := { c with slba := cmd_slba, nlb := cmd_nlb }
    let r := env.submit i c len
    if r.1 ≠ 0 then some (- EIO, [L2pEvent.submit c]) else
    if env.update_l2p i cmd_slba cmd_nlb r.2 ≠ 0 then
      some (- EINTR, [L2pEvent.submit c, L2pEvent.update cmd_slba cmd_nlb])
    else
      (get_l2p_loop env len nlb_pr_rq fuel (i + 1) c
          ((cmd_slba + cmd_nlb) % 2 ^ 64) (nlb - cmd_nlb) r.1).map
        (fun p => (p.1, L2pEvent.submit c :: L2pEvent.update cmd_slba cmd_nlb :: p.2))

/-- `nvme_nvm_get_l2p_tbl(nvmdev, slba, nlb, update_l2p, priv)`: the returned
status and the events, or `none` when `fuel` iterations do not leave the loop. -/
def nvme_nvm_get_l2p_tbl (env : L2pEnv) (fuel : Nat) (ns_id max_hw_sectors slba nlb : Nat) :
    Option (Int × List L2pEvent) :=
  let c : Wire.nvme_nvm_l2ptbl := { opcode := 0, nsid := 0, slba := 0, nlb := 0 }
  let len := l2p_len max_hw_sectors
  let nlb_pr_rq := l2p_nlb_pr_rq max_hw_sectors
  let cmd_slba := slba
  let ret : Int := 0
  let c := { c with opcode := nvme_nvm_admin_get_l2p_tbl }
  let c := { c with nsid := ns_id }
  if !env.kmalloc_ok then some (- ENOMEM, []) else
  get_l2p_loop env len nlb_pr_rq fuel 0 c cmd_slba nlb ret

/-- The `(cmd_slba, cmd_nlb)` of the callback invocations of a trace, in order. -/
def l2p_updates (tr : List L2pEvent) : List (Nat × Nat) :=
  tr.filterMap (fun e => match e with
    | L2pEvent.update s n => some (s, n)
    | L2pEvent.submit _ => none)

/-- The commands handed to the transport in a trace, in order. -/
def l2p_submits (tr : List L2pEvent) : List Wire.nvme_nvm_l2ptbl :=
  tr.filterMap (fun e => match e with
    | L2pEvent.submit c => some c
    | L2pEvent.update _ _ => none)

/-- Start address of chunk `k` (from 0) of a transfer that starts at `slba`
with per-request capacity `cap`. -/
def l2p_chunk_slba (slba cap k : Nat) : Nat := (slba + k * cap) % 2 ^ 64

/-- Entry count of chunk `k` (from 0) of a transfer of `nlb` entries. -/
def l2p_chunk_nlb (nlb cap k : Nat) : Nat := min cap (nlb - k * cap)

/-- The command of chunk `k`. -/
def l2p_chunk_cmd (ns_id slba nlb cap k : Nat) : Wire.nvme_nvm_l2ptbl :=
  { opcode := nvme_nvm_admin_get_l2p_tbl, nsid := ns_id,
    slba := l2p_chunk_slba slba cap k, nlb := l2p_chunk_nlb nlb cap k }

/-- The two events of a chunk that is fetched and handed to the callback. -/
def l2p_chunk_events (ns_id slba nlb cap k : Nat) : List L2pEvent :=
  [ L2pEvent.submit (l2p_chunk_cmd ns_id slba nlb cap k),
    L2pEvent.update (l2p_chunk_slba slba cap k) (l2p_chunk_nlb nlb cap k) ]

/-- An environment in which every allocation and submission succeeds and the
callback accepts every chunk. -/
def l2p_env_ok : L2pEnv :=
  { kmalloc_ok := true, submit := fun _ _ _ => (0, fun _ => 0), update_l2p := fun _ _ _ _ => 0 }

/-- As `l2p_env_ok`, with a callback that rejects in iteration `k`. -/
def l2p_env_reject (k : Nat) : L2pEnv :=
  { l2p_env_ok with update_l2p := fun i _ _ _ => if i = k then 1 else 0 }

/-! ## Bad-block table (`nvme_nvm_get_bb_tbl`) -/

/-- Modelled from the spec: `struct nvm_dev` of the generic layer is declared in
`linux/lightnvm.h`, outside this file; these are the two geometry members
(blocks per unit and plane count, both `int`) that `nvme_nvm_get_bb_tbl` reads.
The response size computed from them, `int tblsz`, is representable. -/
structure nvm_dev where
  blks_per_lun : Nat
  plane_mode : Nat
  tblsz_fits : sizeofStruct false Layout.nvme_nvm_bb_tbl + blks_per_lun * plane_mode < 2 ^ 31

/-- `nvme_nvm_admin_get_bb_tbl`. -/
def nvme_nvm_admin_get_bb_tbl : Nat := 0xf2

/-- The members of `struct nvme_nvm_getbbtbl` that the driver sets; every other
member stays zero. -/
structure Wire.nvme_nvm_getbbtbl where
  opcode : Nat
  nsid : Nat
  spba : Nat
deriving DecidableEq, Repr

/-- The surroundings of one call of `nvme_nvm_get_bb_tbl`. -/
structure BbEnv where
  /-- Whether `kzalloc(tblsz, GFP_KERNEL)` returns a buffer. -/
  kzalloc_ok : Bool
  /-- The code `nvme_submit_sync_cmd` returns for command `c` and a buffer of
  `tblsz` bytes, and the bytes then found in the buffer. -/
  submit : (c : Wire.nvme_nvm_getbbtbl) → (tblsz : Nat) → Int × (Nat → u8)

/-- `bb_tbl->tblid[i]`. -/
def bb_tbl_tblid (bb_tbl : Nat → u8) (i : Nat) : u8 :=
  bb_tbl (fieldOff false Layout.nvme_nvm_bb_tbl "tblid" + i)

/-- `bb_tbl->verid`. -/
def bb_tbl_verid (bb_tbl : Nat → u8) : le16 :=
  le16_at bb_tbl (fieldOff false Layout.nvme_nvm_bb_tbl "verid")

/-- `bb_tbl->tblks`. -/
def bb_tbl_tblks (bb_tbl : Nat → u8) : le32 :=
  le32_at bb_tbl (fieldOff false Layout.nvme_nvm_bb_tbl "tblks")

/-- `bb_tbl->blk`: the status bytes that trail the header. -/
def bb_tbl_blk (bb_tbl : Nat → u8) : Nat → u8 :=
  fun i => bb_tbl (fieldOff false Layout.nvme_nvm_bb_tbl "blk" + i)

/-- `nvme_nvm_get_bb_tbl(nvmdev, ppa, blks)`: the returned status and the
contents of the caller's array `blks` afterwards. -/
def nvme_nvm_get_bb_tbl (env : BbEnv) (nvmdev : nvm_dev) (ns_id ppa : Nat) (blks : Nat → u8) :
    Int × (Nat → u8) :=
  let nr_blks := nvmdev.blks_per_lun * nvmdev.plane_mode
  let tblsz := sizeofStruct false Layout.nvme_nvm_bb_tbl + nr_blks
  let c : Wire.nvme_nvm_getbbtbl :=
    { opcode := nvme_nvm_admin_get_bb_tbl, nsid := ns_id, spba := ppa }
  if !env.kzalloc_ok then (- ENOMEM, blks) else
  let r := env.submit c tblsz
  let ret := r.1
  let bb_tbl := r.2
  if ret ≠ 0 then (- EIO, blks) else
  if bb_tbl_tblid bb_tbl 0 ≠ ascii 'B' ∨ bb_tbl_tblid bb_tbl 1 ≠ ascii 'B' ∨
      bb_tbl_tblid bb_tbl 2 ≠ ascii 'L' ∨ bb_tbl_tblid bb_tbl 3 ≠ ascii 'T' then
    (- EINVAL, blks)
  else if le16_to_cpu (bb_tbl_verid bb_tbl) ≠ 1 then (- EINVAL, blks)
  else if le32_to_cpu (bb_tbl_tblks bb_tbl) ≠ nr_blks % 2 ^ 32 then (- EINVAL, blks)
  else (ret, memcpy blks (bb_tbl_blk bb_tbl) (nvmdev.blks_per_lun * nvmdev.plane_mode))

/-- A device with 2 blocks per unit and 2 planes. -/
def bb_dev_2x2 : nvm_dev := ⟨2, 2, by decide⟩

/-- A response buffer with the given tag, version byte, block count byte and
status byte, every other byte zero. -/
def bb_buf (t0 t1 t2 t3 : Char) (ver tblks st : u8) : Nat → u8 :=
  fun i =>
    if i = 0 then ascii t0 else if i = 1 then ascii t1 else if i = 2 then ascii t2
    else if i = 3 then ascii t3 else if i = 4 then ver else if i = 12 then tblks
    else if 64 ≤ i then st else 0

/-- An environment whose transport succeeds and leaves `buf` in the buffer. -/
def bb_env (buf : Nat → u8) : BbEnv := { kzalloc_ok := true, submit := fun _ _ => (0, buf) }

/-! ## Identify (`init_grps`, `nvme_nvm_identity`) -/

/-- `NVME_NVM_LP_MLC_PAIRS`. -/
def NVME_NVM_LP_MLC_PAIRS : Nat := 886

/-- `struct nvme_nvm_lp_mlc` of the response. -/
structure Wire.nvme_nvm_lp_mlc where
  num_pairs : le16
  pairs : Nat → u8

/-- `struct nvme_nvm_lp_tbl` of the response. -/
structure Wire.nvme_nvm_lp_tbl where
  id : Nat → u8
  mlc : Wire.nvme_nvm_lp_mlc

/-- `struct nvme_nvm_id_group` of the response. -/
structure Wire.nvme_nvm_id_group where
  mtype : u8
  fmtype : u8
  res16 : le16
  num_ch : u8
  num_lun : u8
  num_pln : u8
  rsvd1 : u8
  num_blk : le16
  num_pg : le16
  fpg_sz : le16
  csecs : le16
  sos : le16
  rsvd2 : le16
  trdt : le32
  trdm : le32
  tprt : le32
  tprm : le32
  tbet : le32
  tbem : le32
  mpos : le32
  mccap : le32
  cpar : le16
  reserved : Nat → u8
  lptbl : Wire.nvme_nvm_lp_tbl

/-- `struct nvme_nvm_id`, the identify response; `ppaf` is the address-format
descriptor as the bytes it occupies. -/
structure Wire.nvme_nvm_id where
  ver_id : u8
  vmnt : u8
  cgrps : u8
  res : u8
  cap : le32
  dom : le32
  ppaf : Nat → u8
  resv : Nat → u8
  groups : Nat → Wire.nvme_nvm_id_group

/-- Modelled from the spec: `struct nvm_id_lp_mlc` of the generic layer
(`linux/lightnvm.h`, outside this file): the pair count and the pair bytes. -/
structure Generic.nvm_id_lp_mlc where
  num_pairs : Nat
  pairs : Nat → u8

/-- Modelled from the spec: `struct nvm_id_lp_tbl` of the generic layer
(`linux/lightnvm.h`, outside this file): the 8-byte identifier and the pairs. -/
structure Generic.nvm_id_lp_tbl where
  id : Nat → u8
  mlc : Generic.nvm_id_lp_mlc

/-- Modelled from the spec: `struct nvm_id_group` of the generic layer
(`linux/lightnvm.h`, outside this file), with the members `init_grps` assigns:
8-bit members as bytes, 16- and 32-bit members as their values. -/
structure Generic.nvm_id_group where
  mtype : u8
  fmtype : u8
  num_ch : u8
  num_lun : u8
  num_pln : u8
  num_blk : Nat
  num_pg : Nat
  fpg_sz : Nat
  csecs : Nat
  sos : Nat
  trdt : Nat
  trdm : Nat
  tprt : Nat
  tprm : Nat
  tbet : Nat
  tbem : Nat
  mpos : Nat
  mccap : Nat
  cpar : Nat
  lptbl : Generic.nvm_id_lp_tbl

/-- Modelled from the spec: `struct nvm_id` of the generic layer
(`linux/lightnvm.h`, outside this file), with the members `nvme_nvm_identity`
and `init_grps` write; `ppaf` is the address-format descriptor as bytes. -/
structure Generic.nvm_id where
  ver_id : u8
  vmnt : u8
  cgrps : u8
  cap : Nat
  dom : Nat
  ppaf : Nat → u8
  groups : Nat → Generic.nvm_id_group

/-- The assignments of one iteration of the loop of `init_grps` that come before
the test of `fmtype`: the new contents of `*dst`. -/
def init_grps_scalars (src : Wire.nvme_nvm_id_group) (dst : Generic.nvm_id_group) : Generic.nvm_id_group :=
  let dst := { dst with mtype := src.mtype }
  let dst := { dst with fmtype := src.fmtype }
  let dst := { dst with num_ch := src.num_ch }
  let dst := { dst with num_lun := src.num_lun }
  let dst := { dst with num_pln := src.num_pln }
  let dst := { dst with num_pg := le16_to_cpu src.num_pg }
  let dst := { dst with num_blk := le16_to_cpu src.num_blk }
  let dst := { dst with fpg_sz := le16_to_cpu src.fpg_sz }
  let dst := { dst with csecs := le16_to_cpu src.csecs }
  let dst := { dst with sos := le16_to_cpu src.sos }
  let dst := { dst with trdt := le32_to_cpu src.trdt }
  let dst := { dst with trdm := le32_to_cpu src.trdm }
  let dst := { dst with tprt := le32_to_cpu src.tprt }
  let dst := { dst with tprm := le32_to_cpu src.tprm }
  let dst := { dst with tbet := le32_to_cpu src.tbet }
  let dst := { dst with tbem := le32_to_cpu src.tbem }
  let dst := { dst with mpos := le32_to_cpu src.mpos }
  let dst := { dst with mccap := le32_to_cpu src.mccap }
  let dst := { dst with cpar := le16_to_cpu src.cpar }
  dst

/-- One iteration of the loop of `init_grps` on `src = &nvme_nvm_id->groups[i]`
and `dst = &nvm_id->groups[i]`: `some e` when the iteration returns `e` from the
function, `none` when the loop goes on; and the new contents of `*dst`.
`NVM_ID_FMTYPE_MLC` is declared in `linux/lightnvm.h`, outside this file. -/
def init_grps_body (NVM_ID_FMTYPE_MLC : u8) (src : Wire.nvme_nvm_id_group)
    (dst : Generic.nvm_id_group) : Option Int × Generic.nvm_id_group :=
  let dst := init_grps_scalars src dst
  if dst.fmtype = NVM_ID_FMTYPE_MLC then
    let dst := { dst with lptbl := { dst.lptbl with id := memcpy dst.lptbl.id src.lptbl.id 8 } }
    let dst := { dst with lptbl := { dst.lptbl with
      mlc := { dst.lptbl.mlc with num_pairs := le16_to_cpu src.lptbl.mlc.num_pairs } } }
    if dst.lptbl.mlc.num_pairs > NVME_NVM_LP_MLC_PAIRS then
      (some (- EINVAL), dst)
    else
      let dst := { dst with lptbl := { dst.lptbl with
        mlc := { dst.lptbl.mlc with
          pairs := memcpy dst.lptbl.mlc.pairs src.lptbl.mlc.pairs dst.lptbl.mlc.num_pairs } } }
      (none, dst)
  else
    (none, dst)

/-- `nvm_id->groups[i] = g`. -/
def Generic.nvm_id.setGroup (nvm_id : Generic.nvm_id) (i : Nat) (g : Generic.nvm_id_group) :
    Generic.nvm_id :=
  { nvm_id with groups := fun j => if j = i then g else nvm_id.groups j }

/-- The loop `for (i = 0; i < end; i++)` of `init_grps` from index `i` with `n`
iterations to go (`n = end - i`), and the `return 0` after it. -/
def init_grps_loop (NVM_ID_FMTYPE_MLC : u8) (nvme_nvm_id : Wire.nvme_nvm_id) :
    (n : Nat) → (i : Nat) → Generic.nvm_id → Int × Generic.nvm_id
  | 0, _, nvm_id => (0, nvm_id)
  | n + 1, i, nvm_id =>
    let r := init_grps_body NVM_ID_FMTYPE_MLC (nvme_nvm_id.groups i) (nvm_id.groups i)
    let nvm_id := nvm_id.setGroup i r.2
    match r.1 with
    | some e => (e, nvm_id)
    | none => init_grps_loop NVM_ID_FMTYPE_MLC nvme_nvm_id n (i + 1) nvm_id

/-- `init_grps(nvm_id, nvme_nvm_id)`: the returned status and the contents of
`*nvm_id` afterwards. -/
def init_grps (NVM_ID_FMTYPE_MLC : u8) (nvm_id : Generic.nvm_id)
    (nvme_nvm_id : Wire.nvme_nvm_id) : Int × Generic.nvm_id :=
  let end_grp := min 4 nvm_id.cgrps.val
  init_grps_loop NVM_ID_FMTYPE_MLC nvme_nvm_id end_grp 0 nvm_id

/-- `nvme_nvm_admin_identity`. -/
def nvme_nvm_admin_identity : Nat := 0xe2

/-- The members of `struct nvme_nvm_identity` that the driver sets; every other
member stays zero. -/
structure Wire.nvme_nvm_identity where
  opcode : Nat
  nsid : Nat
  chnl_off : Nat
deriving DecidableEq, Repr

/-- The surroundings of one call of `nvme_nvm_identity`. -/
structure IdEnv where
  /-- Whether `kmalloc(sizeof(struct nvme_nvm_id), GFP_KERNEL)` returns a buffer. -/
  kmalloc_ok : Bool
  /-- The code `nvme_submit_sync_cmd` returns for command `c` and a buffer of
  `len` bytes, and the response then found in the buffer. -/
  submit : (c : Wire.nvme_nvm_identity) → (len : Nat) → Int × Wire.nvme_nvm_id

/-- `nvme_nvm_identity(nvmdev, nvm_id)`: the returned status and the contents of
`*nvm_id` afterwards. -/
def nvme_nvm_identity (NVM_ID_FMTYPE_MLC : u8) (env : IdEnv) (ns_id : Nat)
    (nvm_id : Generic.nvm_id) : Int × Generic.nvm_id :=
  let c : Wire.nvme_nvm_identity :=
    { opcode := nvme_nvm_admin_identity, nsid := ns_id, chnl_off := 0 }
  if !env.kmalloc_ok then (- ENOMEM, nvm_id) else
  let r := env.submit c (sizeofStruct true Layout.nvme_nvm_id)
  let nvme_nvm_id := r.2
  if r.1 ≠ 0 then (- EIO, nvm_id) else
  let nvm_id := { nvm_id with ver_id := nvme_nvm_id.ver_id }
  let nvm_id := { nvm_id with vmnt := nvme_nvm_id.vmnt }
  let nvm_id := { nvm_id with cgrps := nvme_nvm_id.cgrps }
  let nvm_id := { nvm_id with cap := le32_to_cpu nvme_nvm_id.cap }
  let nvm_id := { nvm_id with dom := le32_to_cpu nvme_nvm_id.dom }
  let nvm_id := { nvm_id with
    ppaf := memcpy nvm_id.ppaf nvme_nvm_id.ppaf (sizeofStruct true Layout.nvme_nvm_addr_format) }
  init_grps NVM_ID_FMTYPE_MLC nvm_id nvme_nvm_id

/-- As `l2p_env_ok`, except that the buffer allocation fails. -/
def l2p_env_nomem : L2pEnv := { l2p_env_ok with kmalloc_ok := false }

/-- The condition under which `init_grps` rejects a group of the response: its
page-program type is the multi-level-cell tag and its decoded pair count is
above `NVME_NVM_LP_MLC_PAIRS`. -/
abbrev mlc_pairs_exceed (NVM_ID_FMTYPE_MLC : u8) (src : Wire.nvme_nvm_id_group) : Prop :=
  src.fmtype = NVM_ID_FMTYPE_MLC ∧
    NVME_NVM_LP_MLC_PAIRS < le16_to_cpu src.lptbl.mlc.num_pairs

/-- A group of the response with the given media type, page-program type and
pair count bytes, every pair byte `pr`, everything else zero. -/
def id_src_group (mtype fmtype : u8) (num_pairs : le16) (pr : u8) : Wire.nvme_nvm_id_group :=
  { mtype := mtype, fmtype := fmtype, res16 := ⟨0, 0⟩, num_ch := 0, num_lun := 0, num_pln := 0,
    rsvd1 := 0, num_blk := ⟨0, 0⟩, num_pg := ⟨0, 0⟩, fpg_sz := ⟨0, 0⟩, csecs := ⟨0, 0⟩,
    sos := ⟨0, 0⟩, rsvd2 := ⟨0, 0⟩, trdt := ⟨0, 0, 0, 0⟩, trdm := ⟨0, 0, 0, 0⟩,
    tprt := ⟨0, 0, 0, 0⟩, tprm := ⟨0, 0, 0, 0⟩, tbet := ⟨0, 0, 0, 0⟩, tbem := ⟨0, 0, 0, 0⟩,
    mpos := ⟨0, 0, 0, 0⟩, mccap := ⟨0, 0, 0, 0⟩, cpar := ⟨0, 0⟩, reserved := fun _ => 0,
    lptbl := { id := fun _ => 0, mlc := { num_pairs := num_pairs, pairs := fun _ => pr } } }

/-- An identify response with version `ver_id`, `cgrps` reported groups, group 0
equal to `g0` and every other group equal to `g`. -/
def id_resp (ver_id cgrps : u8) (g0 g : Wire.nvme_nvm_id_group) : Wire.nvme_nvm_id :=
  { ver_id := ver_id, vmnt := 0, cgrps := cgrps, res := 0, cap := ⟨0, 0, 0, 0⟩,
    dom := ⟨0, 0, 0, 0⟩, ppaf := fun _ => 0, resv := fun _ => 0,
    groups := fun j => if j = 0 then g0 else g }

/-- A caller's identity structure that is all zero but for its group count. -/
def id_zero (cgrps : u8) : Generic.nvm_id :=
  { ver_id := 0, vmnt := 0, cgrps := cgrps, cap := 0, dom := 0, ppaf := fun _ => 0,
    groups := fun _ =>
      { mtype := 0, fmtype := 0, num_ch := 0, num_lun := 0, num_pln := 0, num_blk := 0,
        num_pg := 0, fpg_sz := 0, csecs := 0, sos := 0, trdt := 0, trdm := 0, tprt := 0,
        tprm := 0, tbet := 0, tbem := 0, mpos := 0, mccap := 0, cpar := 0,
        lptbl := { id := fun _ => 0, mlc := { num_pairs := 0, pairs := fun _ => 0 } } } }

/-- An environment whose transport succeeds and leaves `resp` in the buffer. -/
def id_env (resp : Wire.nvme_nvm_id) : IdEnv :=
  { kmalloc_ok := true, submit := fun _ _ => (0, resp) }

/-- A multi-level-cell group (tag 1) that reports 887 pairs (`0x0377`). -/
def id_group_887 : Wire.nvme_nvm_id_group := id_src_group 3 1 ⟨0x77, 0x03⟩ 7

/-- A single-level group with media type 5. -/
def id_group_plain : Wire.nvme_nvm_id_group := id_src_group 5 0 ⟨0, 0⟩ 0

/-- A multi-level-cell group (tag 1) that reports 2 pairs. -/
def id_group_mlc2 : Wire.nvme_nvm_id_group := id_src_group 4 1 ⟨2, 0⟩ 7

/-- An environment whose transport serves a request only when the buffer it is
handed has exactly `size` bytes, and then leaves `buf` in it. -/
def bb_env_only_size (size : Nat) (buf : Nat → u8) : BbEnv :=
  { kzalloc_ok := true, submit := fun _ tblsz => (if tblsz = size then 0 else 1, buf) }

/-- As `l2p_env_ok`, with a transport that fails with code `e` in iteration `k`. -/
def l2p_env_fail (k : Nat) (e : Int) : L2pEnv :=
  { l2p_env_ok with submit := fun i _ _ => (if i = k then e else 0, fun _ => 0) }

/-! ## Namespace detection (`nvme_nvm_ns_supported`) -/

/-- `PCI_VENDOR_ID_CNEX`. -/
def PCI_VENDOR_ID_CNEX : Nat := 0x1d1d

/-- `PCI_DEVICE_ID_CNEX_WL`. -/
def PCI_DEVICE_ID_CNEX_WL : Nat := 0x2807

/-- `PCI_DEVICE_ID_CNEX_QEMU`. -/
def PCI_DEVICE_ID_CNEX_QEMU : Nat := 0x1f1f

/-- Modelled from the spec: `struct pci_dev` is declared in `linux/pci.h`,
outside this file; these are the two members the vendor-quirk detection reads. -/
structure pci_dev where
  vendor : Nat
  device : Nat

/-- Modelled from the spec: `struct nvme_id_ns` is declared in `linux/nvme.h`,
outside this file; `vs` is its array of vendor-specific bytes. -/
structure nvme_id_ns where
  vs : Nat → u8

/-- `nvme_nvm_ns_supported(ns, id)`, with `pdev = to_pci_dev(ns->ctrl->dev)`. -/
def nvme_nvm_ns_supported (pdev : pci_dev) (id : nvme_id_ns) : Int :=
  if pdev.vendor = PCI_VENDOR_ID_CNEX ∧ pdev.device = PCI_DEVICE_ID_CNEX_QEMU ∧
      id.vs 0 = 0x1 then 1
  else if pdev.vendor = PCI_VENDOR_ID_CNEX ∧ pdev.device = PCI_DEVICE_ID_CNEX_WL ∧
      id.vs 0 = 0x1 then 1
  else if pdev.vendor = PCI_VENDOR_ID_CNEX ∧ pdev.device = 0x0e01 ∧ id.vs 0 = 0x1 then 1
  else 0

/-! ## Commands as bytes (`nvme_nvm_erase_block`, `nvme_nvm_set_bb_tbl`) -/

/-- Byte `j` of the little-endian representation of `v`. -/
def le_byte (v j : Nat) : u8 := ⟨v / 256 ^ j % 256, Nat.mod_lt _ (by decide)⟩

/-- An assignment to a member of `w` bytes at offset `off` of the buffer `c`:
`c->m = v` for a `__u8` member, `c->m = cpu_to_le16(v)`, `cpu_to_le32(v)` or
`cpu_to_le64(v)` for a `__le` member. The value is truncated to `w` bytes. -/
def put_le (c : Nat → u8) (off w v : Nat) : Nat → u8 :=
  fun i => if off ≤ i ∧ i < off + w then le_byte v (i - off) else c i

/-- The value of the little-endian member of `w` bytes at offset `off`. -/
def get_le (c : Nat → u8) (off : Nat) : Nat → Nat
  | 0 => 0
  | w + 1 => get_le c off w + 256 ^ w * (c (off + w)).val

/-- Conversion of an `int` to a 16-bit unsigned value. -/
def to_u16 (x : Int) : Nat := (x % 65536).toNat

/-- Conversion of an `int` to an 8-bit unsigned value. -/
def to_u8 (x : Int) : Nat := (x % 256).toNat

/-- `struct nvme_nvm_command c = {}`. -/
def zero_command : Nat → u8 := fun _ => 0

/-- The surroundings of a call that submits one command without data:
the code `nvme_submit_sync_cmd(q, &c, NULL, 0)` returns for the bytes of `c`. -/
structure SyncEnv where
  submit : (c : Nat → u8) → Int

/-- The command `c` of `nvme_nvm_erase_block` as it stands at the call of
`nvme_submit_sync_cmd`. `NVM_OP_ERASE` is declared in `linux/lightnvm.h`,
outside this file; `ppa` is `rqd->ppa_addr.ppa`. -/
def erase_block_command (NVM_OP_ERASE : u8) (ns_id ppa nr_ppas : Nat) : Nat → u8 :=
  let c := zero_command
  let c := put_le c (fieldOff false Layout.nvme_nvm_erase_blk "opcode") 1 NVM_OP_ERASE.val
  let c := put_le c (fieldOff false Layout.nvme_nvm_erase_blk "nsid") 4 ns_id
  let c := put_le c (fieldOff false Layout.nvme_nvm_erase_blk "spba") 8 ppa
  let c := put_le c (fieldOff false Layout.nvme_nvm_erase_blk "length") 2
    (to_u16 ((nr_ppas : Int) - 1))
  c

/-- `nvme_nvm_erase_block(dev, rqd)`. -/
def nvme_nvm_erase_block (NVM_OP_ERASE : u8) (env : SyncEnv) (ns_id ppa nr_ppas : Nat) : Int :=
  env.submit (erase_block_command NVM_OP_ERASE ns_id ppa nr_ppas)

/-- `nvme_nvm_admin_set_bb_tbl`. -/
def nvme_nvm_admin_set_bb_tbl : Nat := 0xf1

/-- The command `c` of `nvme_nvm_set_bb_tbl` as it stands at the call of
`nvme_submit_sync_cmd`; `ppas` is the caller's array of addresses. -/
def set_bb_tbl_command (ns_id : Nat) (ppas : Nat → Nat) (nr_ppas type : Int) : Nat → u8 :=
  let c := zero_command
  let c := put_le c (fieldOff false Layout.nvme_nvm_setbbtbl "opcode") 1 nvme_nvm_admin_set_bb_tbl
  let c := put_le c (fieldOff false Layout.nvme_nvm_setbbtbl "nsid") 4 ns_id
  let c := put_le c (fieldOff false Layout.nvme_nvm_setbbtbl "spba") 8 (ppas 0)
  let c := put_le c (fieldOff false Layout.nvme_nvm_setbbtbl "nlb") 2 (to_u16 (nr_ppas - 1))
  let c := put_le c (fieldOff false Layout.nvme_nvm_setbbtbl "value") 1 (to_u8 type)
  c

/-- `nvme_nvm_set_bb_tbl(nvmdev, ppas, nr_ppas, type)`. -/
def nvme_nvm_set_bb_tbl (env : SyncEnv) (ns_id : Nat) (ppas : Nat → Nat) (nr_ppas type : Int) :
    Int :=
  let c := set_bb_tbl_command ns_id ppas nr_ppas type
  let ret := env.submit c
  ret

/-! ## I/O submission (`nvme_nvm_rqtocmd`, `nvme_nvm_submit_io`, `nvme_nvm_end_io`) -/

/-- Modelled from the spec: `struct nvm_rq` of the generic layer is declared in
`linux/lightnvm.h`, outside this file; these are the members of a generic I/O
request that `nvme_nvm_rqtocmd` reads: operation kind, physical address
(`ppa_addr.ppa`), metadata address, control flags, number of addresses, and
the position of the caller's buffer (`bio->bi_iter.bi_sector`). -/
structure Generic.nvm_rq where
  opcode : u8
  ppa : Nat
  dma_meta_list : Nat
  flags : Nat
  nr_ppas : Nat
  bi_sector : Nat

/-- `nvme_nvm_rqtocmd(rq, rqd, ns, c)`: the contents of `*c` afterwards.
`NVM_OP_HBWRITE` and `NVM_OP_HBREAD` are declared in `linux/lightnvm.h` and
`nvme_block_nr(ns, sector)` in `nvme.h`, outside this file. -/
def nvme_nvm_rqtocmd (NVM_OP_HBWRITE NVM_OP_HBREAD : u8) (nvme_block_nr : Nat → Nat)
    (rqd : Generic.nvm_rq) (ns_id : Nat) (c : Nat → u8) : Nat → u8 :=
  let c := put_le c (fieldOff false Layout.nvme_nvm_ph_rw "opcode") 1 rqd.opcode.val
  let c := put_le c (fieldOff false Layout.nvme_nvm_ph_rw "nsid") 4 ns_id
  let c := put_le c (fieldOff false Layout.nvme_nvm_ph_rw "spba") 8 rqd.ppa
  let c := put_le c (fieldOff false Layout.nvme_nvm_ph_rw "metadata") 8 rqd.dma_meta_list
  let c := put_le c (fieldOff false Layout.nvme_nvm_ph_rw "control") 2 rqd.flags
  let c := put_le c (fieldOff false Layout.nvme_nvm_ph_rw "length") 2
    (to_u16 ((rqd.nr_ppas : Int) - 1))
  if rqd.opcode = NVM_OP_HBWRITE ∨ rqd.opcode = NVM_OP_HBREAD then
    put_le c (fieldOff false Layout.nvme_nvm_hb_rw "slba") 8 (nvme_block_nr rqd.bi_sector)
  else
    c

/-- `struct nvme_nvm_completion`. -/
def Layout.nvme_nvm_completion : List CField :=
  [ .scalar "result" 8, .scalar "sq_head" 2, .scalar "sq_id" 2, .scalar "command_id" 2,
    .scalar "status" 2 ]

/-- `sizeof(struct nvme_nvm_command)`: the size of the union of the command
variants. The union has one more member, `struct nvme_common_command`, which is
declared in `linux/nvme.h`, outside this file. -/
def sizeof_nvme_nvm_command : Nat :=
  (Layout.nvme_nvm_command_variants.map (sizeofStruct false)).foldl max 0

/-- A pointer: an allocated buffer and a byte offset into it. -/
structure Ptr where
  buf : Nat
  off : Nat
deriving DecidableEq, Repr

/-- The members of `struct request` that `nvme_nvm_submit_io` sets and
`nvme_nvm_end_io` reads; `tag` names the handle that `blk_mq_alloc_request`
returned. The members that describe the data transfer (`cmd_type`, `ioprio`,
`nr_phys_segments`, `__data_len`, `bio`, `biotail`) are not read by
`nvme_nvm_end_io` and are left out; `end_io_data` is the one request `rqd` of
the model. -/
structure request where
  tag : Nat
  cmd : Ptr
  cmd_len : Nat
  special : Option Ptr
deriving DecidableEq, Repr

/-- What the I/O path does to the outside, in program order. -/
inductive IoEvent where
  /-- `blk_execute_rq_nowait(q, NULL, rq, 0, nvme_nvm_end_io)`. -/
  | blk_execute_rq_nowait (rq : request)
  /-- `nvm_end_io(rqd, error)`: the completion notification of the generic layer. -/
  | nvm_end_io (error : Int)
  /-- `kfree(p)`. -/
  | kfree (p : Ptr)
  /-- `blk_mq_free_request(rq)`. -/
  | blk_mq_free_request (tag : Nat)
deriving DecidableEq, Repr

/-- The state the I/O path works on: the contents of the allocated buffers, the
member `rqd->ppa_status` of the generic request, and the events so far. -/
structure IoWorld where
  mem : Nat → Nat → u8
  ppa_status : Nat
  events : List IoEvent

/-- The allocators of one call of `nvme_nvm_submit_io`: the handle returned by
`blk_mq_alloc_request` (`none` for an error pointer) and the buffer returned by
`kzalloc` (`none` for `NULL`). -/
structure IoEnv where
  blk_mq_alloc_request : Option Nat
  kzalloc : Option Nat

/-- The buffers after the contents of buffer `b` are replaced by `c`. -/
def IoWorld.setBuf (w : IoWorld) (b : Nat) (c : Nat → u8) : IoWorld :=
  { w with mem := fun b' => if b' = b then c else w.mem b' }

/-- The world after one more event. -/
def IoWorld.emit (w : IoWorld) (e : IoEvent) : IoWorld :=
  { w with events := w.events ++ [e] }

/-- `nvme_nvm_submit_io(dev, rqd)`: the returned status, the world afterwards
and the request handed to the transport, if any. -/
def nvme_nvm_submit_io (NVM_OP_HBWRITE NVM_OP_HBREAD : u8) (nvme_block_nr : Nat → Nat)
    (env : IoEnv) (ns_id : Nat) (rqd : Generic.nvm_rq) (w : IoWorld) :
    Int × IoWorld × Option request :=
  match env.blk_mq_alloc_request with
  | none => (- ENOMEM, w, none)
  | some tag =>
    match env.kzalloc with
    | none => (- ENOMEM, w.emit (IoEvent.blk_mq_free_request tag), none)
    | some b =>
      let cmd : Ptr := ⟨b, 0⟩
      let w := w.setBuf b (fun _ => 0)
      let w := w.setBuf b
        (nvme_nvm_rqtocmd NVM_OP_HBWRITE NVM_OP_HBREAD nvme_block_nr rqd ns_id (w.mem b))
      let rq : request :=
        { tag := tag, cmd := cmd, cmd_len := sizeof_nvme_nvm_command,
          special := some ⟨cmd.buf, cmd.off + 1 * sizeof_nvme_nvm_command⟩ }
      let w := w.emit (IoEvent.blk_execute_rq_nowait rq)
      (0, w, some rq)

/-- `le64_to_cpu(cqe->result)` for the completion entry at `cqe`. -/
def cqe_result (w : IoWorld) (cqe : Ptr) : Nat :=
  get_le (w.mem cqe.buf) (cqe.off + fieldOff false Layout.nvme_nvm_completion "result") 8

/-- `nvme_nvm_end_io(rq, error)`: the world afterwards. -/
def nvme_nvm_end_io (rq : request) (error : Int) (w : IoWorld) : IoWorld :=
  let w := match rq.special with
    | some cqe => { w with ppa_status := cqe_result w cqe }
    | none => w
  let w := w.emit (IoEvent.nvm_end_io error)
  let w := w.emit (IoEvent.kfree rq.cmd)
  let w := w.emit (IoEvent.blk_mq_free_request rq.tag)
  w

/-- Modelled from the spec: the transport signals the completion of a request
that was handed to it with `nvme_nvm_end_io` as its completion handler. The
transport itself is outside this file: it leaves the completion entry `cqe`
(`sizeof(struct nvme_nvm_completion)` bytes) at `rq->special` when that is not
`NULL`, and calls the handler once with its error code. -/
def transport_complete (rq : request) (cqe : Nat → u8) (error : Int) (w : IoWorld) : IoWorld :=
  let w := match rq.special with
    | some p =>
      { w with mem := fun b i =>
          if b = p.buf ∧ p.off ≤ i ∧ i < p.off + sizeofStruct false Layout.nvme_nvm_completion
          then cqe (i - p.off) else w.mem b i }
    | none => w
  nvme_nvm_end_io rq error w

/-- A world with zeroed buffers, status 0 and no events. -/
def io_world_empty : IoWorld := { mem := fun _ _ => 0, ppa_status := 0, events := [] }

/-- A host-block write (taking 0x81 for its opcode) of 4 addresses. -/
def io_rq_hbwrite : Generic.nvm_rq :=
  { opcode := 0x81, ppa := 0x1234, dma_meta_list := 0x5000, flags := 3, nr_ppas := 4,
    bi_sector := 64 }

/-- A physical read (taking 0x92 for its opcode) of 4 addresses. -/
def io_rq_pread : Generic.nvm_rq :=
  { opcode := 0x92, ppa := 0x1234, dma_meta_list := 0x5000, flags := 3, nr_ppas := 4,
    bi_sector := 64 }

/-- A completion entry whose result member is `0x0201`. -/
def io_cqe : Nat → u8 := fun i => if i = 0 then 1 else if i = 1 then 2 else 0

/-- The error codes of the completion notifications among `evs`, in order. -/
def io_notifications (evs : List IoEvent) : List Int :=
  evs.filterMap (fun e => match e with
    | IoEvent.nvm_end_io error => some error
    | _ => none)

/-- The buffers released with `kfree` among `evs`, in order. -/
def io_kfrees (evs : List IoEvent) : List Ptr :=
  evs.filterMap (fun e => match e with
    | IoEvent.kfree p => some p
    | _ => none)

/-- The request handles released among `evs`, in order. -/
def io_request_frees (evs : List IoEvent) : List Nat :=
  evs.filterMap (fun e => match e with
    | IoEvent.blk_mq_free_request tag => some tag
    | _ => none)

/-- Allocators that succeed with handle 5 and buffer 9. -/
def io_env_ok : IoEnv := { blk_mq_alloc_request := some 5, kzalloc := some 9 }

/-! ## The size assertions (`_nvme_nvm_check_size`) -/

/-- `_nvme_nvm_check_size`: each `BUILD_BUG_ON(sizeof(struct s) != n)` of the
function, as the name of `s`, the size of `s` as declared, and `n`. -/
def nvme_nvm_check_size : List (String × Nat × Nat) :=
  [ ("nvme_nvm_identity", sizeofStruct false Layout.nvme_nvm_identity, 64),
    ("nvme_nvm_hb_rw", sizeofStruct false Layout.nvme_nvm_hb_rw, 64),
    ("nvme_nvm_ph_rw", sizeofStruct false Layout.nvme_nvm_ph_rw, 64),
    ("nvme_nvm_getbbtbl", sizeofStruct false Layout.nvme_nvm_getbbtbl, 64),
    ("nvme_nvm_setbbtbl", sizeofStruct false Layout.nvme_nvm_setbbtbl, 64),
    ("nvme_nvm_l2ptbl", sizeofStruct false Layout.nvme_nvm_l2ptbl, 64),
    ("nvme_nvm_erase_blk", sizeofStruct false Layout.nvme_nvm_erase_blk, 64),
    ("nvme_nvm_id_group", sizeofStruct true Layout.nvme_nvm_id_group, 960),
    ("nvme_nvm_addr_format", sizeofStruct true Layout.nvme_nvm_addr_format, 128),
    ("nvme_nvm_id", sizeofStruct true Layout.nvme_nvm_id, 4096),
    ("nvme_nvm_bb_tbl", sizeofStruct false Layout.nvme_nvm_bb_tbl, 512) ]

/-- The structures whose `BUILD_BUG_ON(sizeof(struct s) != n)` has a true
condition, that is, whose declared size is not the asserted one. -/
def build_bug_on_fired (checks : List (String × Nat × Nat)) : List String :=
  (checks.filter (fun c => c.2.1 != c.2.2)).map (fun c => c.1)

/-- `int tblsz = sizeof(struct nvme_nvm_bb_tbl) + nr_blks` of
`nvme_nvm_get_bb_tbl`: the size it gives to `kzalloc` and to
`nvme_submit_sync_cmd`. -/
def bb_tbl_tblsz (nvmdev : nvm_dev) : Nat :=
  sizeofStruct false Layout.nvme_nvm_bb_tbl + nvmdev.blks_per_lun * nvmdev.plane_mode

/-- A well-formed response for 4 blocks whose bytes 64 to 511 are 9 and whose
bytes from 512 on are 7. -/
def bb_buf_split : Nat → u8 :=
  fun i =>
    if i = 0 then ascii 'B' else if i = 1 then ascii 'B' else if i = 2 then ascii 'L'
    else if i = 3 then ascii 'T' else if i = 4 then 1 else if i = 12 then 4
    else if 512 ≤ i then 7 else if 64 ≤ i then 9 else 0

/-- An identify response that reports no group and whose address-format
descriptor, and the bytes behind it, are all 7. -/
def id_resp_ppaf7 : Wire.nvme_nvm_id :=
  { id_resp 1 0 id_group_plain id_group_plain with ppaf := fun _ => 7 }

/-! # Theorems -/

/-! ## Command layouts -/

/-- C10: each of the seven command variants declared in the file occupies
exactly 64 bytes when its members are laid out in declaration order with
natural alignment, the member sizes alone add up to 64 and every member sits
where it would without alignment (no padding), and each variant begins with
opcode (offset 0, 1 byte), flags (offset 1, 1 byte), command id (offset 2,
2 bytes) and namespace id (offset 4, 4 bytes). -/
theorem command_variants_are_64_bytes :
    Layout.nvme_nvm_command_variants.length = 7 ∧
    ∀ fs ∈ Layout.nvme_nvm_command_variants,
      sizeofStruct false fs = 64 ∧ fieldBytes fs = 64 ∧
      layoutFrom false 0 fs = layoutFrom true 0 fs ∧
      headerOf fs = [("opcode", 0, 1), ("flags", 1, 1), ("command_id", 2, 2), ("nsid", 4, 4)] := by
  decide

/-! ## Table transfer -/

theorem two_pow_64 : (2 : Nat) ^ 64 = 18446744073709551616 := by norm_num

/-- The number of chunks `(nlb + cap - 1) / cap` covers `nlb`, and one chunk
fewer does not. -/
theorem l2p_nr_chunks_spec (nlb cap : Nat) (hcap : 1 ≤ cap) :
    nlb ≤ (nlb + cap - 1) / cap * cap ∧
    ((nlb + cap - 1) / cap ≠ 0 → ((nlb + cap - 1) / cap - 1) * cap < nlb) := by
  have h1 := Nat.div_add_mod (nlb + cap - 1) cap
  have h2 := Nat.mod_lt (nlb + cap - 1) (show 0 < cap by omega)
  rw [Nat.mul_comm] at h1
  generalize (nlb + cap - 1) / cap = q at *
  generalize (nlb + cap - 1) % cap = r at *
  constructor
  · omega
  · intro hq
    obtain ⟨q', rfl⟩ : ∃ q', q = q' + 1 := ⟨q - 1, by omega⟩
    have : (q' + 1) * cap = q' * cap + cap := by ring
    simp only [Nat.add_sub_cancel]
    omega

/-- The loop on its successful path: started at chunk `k` with `n` chunks to go,
it fetches and delivers exactly those chunks and leaves with status 0. -/
theorem get_l2p_loop_ok (env : L2pEnv) (len cap ns_id slba nlb : Nat)
    (hsub : ∀ i c l, (env.submit i c l).1 = 0)
    (hupd : ∀ i s n e, env.update_l2p i s n e = 0) :
    ∀ (n k fuel s : Nat) (c : Wire.nvme_nvm_l2ptbl),
      c.opcode = nvme_nvm_admin_get_l2p_tbl → c.nsid = ns_id →
      n ≤ fuel → nlb ≤ (k + n) * cap → (n ≠ 0 → (k + n - 1) * cap < nlb) →
      (n ≠ 0 → s = l2p_chunk_slba slba cap k) →
      get_l2p_loop env len cap fuel k c s (nlb - k * cap) 0 =
        some (0, (List.range' k n).flatMap (l2p_chunk_events ns_id slba nlb cap)) := by
  intro n
  induction n with
  | zero =>
    intro k fuel s c _ _ _ h1 _ _
    have h0 : nlb - k * cap = 0 := by simp at h1; omega
    cases fuel <;> simp [get_l2p_loop, h0]
  | succ n ih =>
    intro k fuel s c hop hns hf h1 h2 hs
    obtain ⟨f, rfl⟩ : ∃ f, fuel = f + 1 := ⟨fuel - 1, by omega⟩
    have h2' : k * cap < nlb := by
      have := h2 (by omega)
      have e : (k + (n + 1) - 1) * cap = k * cap + n * cap := by
        rw [show k + (n + 1) - 1 = k + n by omega]; ring
      omega
    have hs' := hs (by omega)
    have hne : nlb - k * cap ≠ 0 := by omega
    have hc : ({ c with slba := s, nlb := min cap (nlb - k * cap) } : Wire.nvme_nvm_l2ptbl) =
        l2p_chunk_cmd ns_id slba nlb cap k := by
      cases c
      simp only [l2p_chunk_cmd, l2p_chunk_nlb] at *
      subst hop hns hs'
      rfl
    have hrec := ih (k + 1) f ((s + min cap (nlb - k * cap)) % 2 ^ 64)
      (l2p_chunk_cmd ns_id slba nlb cap k) rfl rfl (by omega)
      (by rw [show k + 1 + n = k + (n + 1) by omega]; exact h1)
      (by
        intro hn
        rw [show k + 1 + n - 1 = k + (n + 1) - 1 by omega]
        exact h2 (by omega))
      (by
        intro hn
        have := h2 (by omega)
        have e : (k + (n + 1) - 1) * cap = k * cap + cap + (n - 1) * cap := by
          obtain ⟨m, rfl⟩ : ∃ m, n = m + 1 := ⟨n - 1, by omega⟩
          rw [show k + (m + 1 + 1) - 1 = k + 1 + m by omega]
          simp only [Nat.add_sub_cancel]
          ring
        have e2 : (k + 1) * cap = k * cap + cap := by ring
        simp only [l2p_chunk_slba, two_pow_64] at hs' ⊢
        rw [hs', e2]
        have hmin : min cap (nlb - k * cap) = cap := by omega
        rw [hmin]
        omega)
    have hrem : nlb - k * cap - min cap (nlb - k * cap) = nlb - (k + 1) * cap := by
      have e2 : (k + 1) * cap = k * cap + cap := by ring
      omega
    rw [get_l2p_loop]
    simp only [hne, if_false, hc, hsub, hupd, ne_eq, not_true_eq_false, hrem, hrec,
      Option.map_some', List.range'_succ, List.flatMap_cons]
    simp [l2p_chunk_events, hs', l2p_chunk_nlb]

/-- The callback invocations of a run of delivered chunks. -/
theorem l2p_updates_chunk_events (ns_id slba nlb cap : Nat) :
    ∀ n k, l2p_updates ((List.range' k n).flatMap (l2p_chunk_events ns_id slba nlb cap)) =
      (List.range' k n).map (fun j => (l2p_chunk_slba slba cap j, l2p_chunk_nlb nlb cap j)) := by
  intro n
  induction n with
  | zero => intro k; simp [l2p_updates]
  | succ n ih =>
    intro k
    have := ih (k + 1)
    simp only [l2p_updates] at this ⊢
    simp [List.range'_succ, List.flatMap_cons, List.filterMap_append, this, l2p_chunk_events]

/-- The transport requests of a run of delivered chunks. -/
theorem l2p_submits_chunk_events (ns_id slba nlb cap : Nat) :
    ∀ n k, l2p_submits ((List.range' k n).flatMap (l2p_chunk_events ns_id slba nlb cap)) =
      (List.range' k n).map (l2p_chunk_cmd ns_id slba nlb cap) := by
  intro n
  induction n with
  | zero => intro k; simp [l2p_submits]
  | succ n ih =>
    intro k
    have := ih (k + 1)
    simp only [l2p_submits] at this ⊢
    simp [List.range'_succ, List.flatMap_cons, List.filterMap_append, this, l2p_chunk_events]

/-- The entry counts of the chunks `k, ..., k + n - 1` add up to what was left
before chunk `k`, when those chunks cover it. -/
theorem l2p_chunk_nlb_sum (nlb cap : Nat) :
    ∀ n k, nlb ≤ (k + n) * cap →
      ((List.range' k n).map (l2p_chunk_nlb nlb cap)).sum = nlb - k * cap := by
  intro n
  induction n with
  | zero => intro k h; simp at h ⊢; omega
  | succ n ih =>
    intro k h
    have := ih (k + 1) (by rw [show k + 1 + n = k + (n + 1) by omega]; exact h)
    have e2 : (k + 1) * cap = k * cap + cap := by ring
    simp only [List.range'_succ, List.map_cons, List.sum_cons, this, l2p_chunk_nlb]
    omega

/-- C1 (as amended): for every 64-bit start address `slba`, every entry count
`nlb` and every per-request capacity `cap ≥ 1`, when the buffer allocation
succeeds, every transport submission succeeds and the callback always accepts,
`nvme_nvm_get_l2p_tbl` returns 0 once the fuel covers the `⌈nlb / cap⌉`
iterations; it issues `⌈nlb / cap⌉` requests and invokes the callback
`⌈nlb / cap⌉` times; chunk `k` starts at `(slba + k * cap) mod 2 ^ 64` and has
`min cap (nlb - k * cap)` entries; no chunk has more than `cap` entries, every
chunk but the last has exactly `cap`, and the entry counts add up to `nlb`.
When `slba + nlb ≤ 2 ^ 64` (the address does not wrap) the start addresses are
strictly increasing and each chunk starts where the previous one ends. -/
theorem get_l2p_tbl_delivers_all_chunks (env : L2pEnv)
    (fuel ns_id max_hw_sectors slba nlb cap : Nat)
    (hc : l2p_nlb_pr_rq max_hw_sectors = cap) (hcap : 1 ≤ cap) (hslba : slba < 2 ^ 64)
    (halloc : env.kmalloc_ok = true)
    (hsub : ∀ i c len, (env.submit i c len).1 = 0)
    (hupd : ∀ i s n e, env.update_l2p i s n e = 0)
    (hfuel : (nlb + cap - 1) / cap ≤ fuel) :
    ∃ tr, nvme_nvm_get_l2p_tbl env fuel ns_id max_hw_sectors slba nlb = some (0, tr) ∧
      (l2p_submits tr).length = (nlb + cap - 1) / cap ∧
      (l2p_updates tr).length = (nlb + cap - 1) / cap ∧
      (∀ k, k < (nlb + cap - 1) / cap →
        (l2p_updates tr)[k]? = some ((slba + k * cap) % 2 ^ 64, min cap (nlb - k * cap))) ∧
      (∀ p ∈ l2p_updates tr, p.2 ≤ cap) ∧
      (∀ k, k + 1 < (nlb + cap - 1) / cap →
        ((l2p_updates tr)[k]?).map Prod.snd = some cap) ∧
      ((l2p_updates tr).map Prod.snd).sum = nlb ∧
      (slba + nlb ≤ 2 ^ 64 →
        ((l2p_updates tr).map Prod.fst).Pairwise (fun a b => a < b) ∧
        ∀ k a b, (l2p_updates tr)[k]? = some a → (l2p_updates tr)[k + 1]? = some b →
          b.1 = a.1 + a.2) := by
  obtain ⟨hN1, hN2⟩ := l2p_nr_chunks_spec nlb cap hcap
  generalize hN : (nlb + cap - 1) / cap = N at *
  have hrun := get_l2p_loop_ok env (l2p_len max_hw_sectors) cap ns_id slba nlb hsub hupd
    N 0 fuel slba ⟨nvme_nvm_admin_get_l2p_tbl, ns_id, 0, 0⟩ rfl rfl hfuel
    (by simpa using hN1) (by simpa using hN2)
    (by
      intro _
      simp only [l2p_chunk_slba, Nat.zero_mul, Nat.add_zero]
      exact (Nat.mod_eq_of_lt hslba).symm)
  have hlt : ∀ k, k < N → k * cap < nlb := by
    intro k hk
    have h := hN2 (by omega)
    obtain ⟨M, rfl⟩ : ∃ M, N = M + 1 := ⟨N - 1, by omega⟩
    simp only [Nat.add_sub_cancel] at h
    have : k * cap ≤ M * cap := Nat.mul_le_mul_right cap (by omega)
    omega
  refine ⟨(List.range' 0 N).flatMap (l2p_chunk_events ns_id slba nlb cap),
    ?_, ?_, ?_, ?_, ?_, ?_, ?_, ?_⟩
  · simp only [nvme_nvm_get_l2p_tbl, halloc, hc]
    simpa using hrun
  · simp [l2p_submits_chunk_events]
  · simp [l2p_updates_chunk_events]
  · intro k hk
    rw [l2p_updates_chunk_events, List.getElem?_map, List.getElem?_range' _ _ hk]
    simp [l2p_chunk_slba, l2p_chunk_nlb]
  · intro p hp
    rw [l2p_updates_chunk_events] at hp
    obtain ⟨j, _, rfl⟩ := List.mem_map.1 hp
    simp only [l2p_chunk_nlb]
    omega
  · intro k hk
    rw [l2p_updates_chunk_events, List.getElem?_map, List.getElem?_range' _ _ (by omega)]
    have h := hlt (k + 1) hk
    have e2 : (k + 1) * cap = k * cap + cap := by ring
    simp only [Option.map_some', l2p_chunk_nlb, Nat.zero_add, Nat.one_mul, Option.some.injEq]
    omega
  · rw [l2p_updates_chunk_events, List.map_map]
    have := l2p_chunk_nlb_sum nlb cap N 0 (by simpa using hN1)
    simpa [Function.comp_def] using this
  · intro hwrap
    rw [two_pow_64] at hwrap
    have hstart : ∀ k, k < N → l2p_chunk_slba slba cap k = slba + k * cap := by
      intro k hk
      have := hlt k hk
      simp only [l2p_chunk_slba, two_pow_64]
      omega
    constructor
    · rw [l2p_updates_chunk_events, List.map_map, List.pairwise_map]
      refine List.Pairwise.imp_of_mem ?_ (List.pairwise_lt_range' 0 N)
      intro a b ha hb hab
      have ha' : a < N := by simpa using (List.mem_range'_1.1 ha).2
      have hb' : b < N := by simpa using (List.mem_range'_1.1 hb).2
      simp only [Function.comp_def, hstart a ha', hstart b hb']
      have : a * cap < b * cap := Nat.mul_lt_mul_of_lt_of_le hab (Nat.le_refl _) (by omega)
      omega
    · intro k a b hka hkb
      rw [l2p_updates_chunk_events, List.getElem?_map] at hka hkb
      have hk1 : k + 1 < N := by
        by_contra hcon
        rw [List.getElem?_eq_none (by simp; omega)] at hkb
        simp at hkb
      rw [List.getElem?_range' _ _ (by omega)] at hka
      rw [List.getElem?_range' _ _ hk1] at hkb
      simp only [Option.map_some', Option.some.injEq, Nat.zero_add, Nat.one_mul] at hka hkb
      subst hka hkb
      have h := hlt (k + 1) hk1
      have e2 : (k + 1) * cap = k * cap + cap := by ring
      simp only [hstart k (by omega), hstart (k + 1) hk1, l2p_chunk_nlb]
      omega

/-- Witness for C1: 10000 entries at capacity 512 (`max_hw_sectors = 8`). -/
theorem get_l2p_tbl_delivers_all_chunks_witness :
    ∃ tr, nvme_nvm_get_l2p_tbl l2p_env_ok 20 1 8 0 10000 = some (0, tr) ∧
      (l2p_submits tr).length = (10000 + 512 - 1) / 512 ∧
      (l2p_updates tr).length = (10000 + 512 - 1) / 512 ∧
      (∀ k, k < (10000 + 512 - 1) / 512 →
        (l2p_updates tr)[k]? = some ((0 + k * 512) % 2 ^ 64, min 512 (10000 - k * 512))) ∧
      (∀ p ∈ l2p_updates tr, p.2 ≤ 512) ∧
      (∀ k, k + 1 < (10000 + 512 - 1) / 512 →
        ((l2p_updates tr)[k]?).map Prod.snd = some 512) ∧
      ((l2p_updates tr).map Prod.snd).sum = 10000 ∧
      (0 + 10000 ≤ 2 ^ 64 →
        ((l2p_updates tr).map Prod.fst).Pairwise (fun a b => a < b) ∧
        ∀ k a b, (l2p_updates tr)[k]? = some a → (l2p_updates tr)[k + 1]? = some b →
          b.1 = a.1 + a.2) :=
  get_l2p_tbl_delivers_all_chunks l2p_env_ok 20 1 8 0 10000 512 (by decide) (by decide)
    (by decide) rfl (fun _ _ _ => rfl) (fun _ _ _ _ => rfl) (by decide)

/-- C1 as stated fails in two ways. With capacity 64 (`max_hw_sectors = 1`),
a transfer of 128 entries from `slba = 2 ^ 64 - 64` succeeds with two chunks,
but the second chunk starts at 0: the start addresses are not increasing and
the second one is not `slba + 1 * cap`. And when the buffer allocation fails,
the call returns `-ENOMEM` without any callback, although every submission
would succeed and the callback would accept. -/
theorem get_l2p_tbl_wraps_or_lacks_memory :
    l2p_nlb_pr_rq 1 = 64 ∧ (128 + 64 - 1) / 64 = 2 ∧
    (∃ tr, nvme_nvm_get_l2p_tbl l2p_env_ok 2 1 1 (2 ^ 64 - 64) 128 = some (0, tr) ∧
      l2p_updates tr = [(2 ^ 64 - 64, 64), (0, 64)] ∧
      ¬ ((l2p_updates tr).map Prod.fst).Pairwise (fun a b => a < b) ∧
      (l2p_updates tr)[1]? ≠ some (2 ^ 64 - 64 + 1 * 64, 64)) ∧
    (∀ i c len, (l2p_env_nomem.submit i c len).1 = 0) ∧
    (∀ i s n e, l2p_env_nomem.update_l2p i s n e = 0) ∧
    (∀ fuel, nvme_nvm_get_l2p_tbl l2p_env_nomem fuel 1 1 0 128 = some (- ENOMEM, [])) ∧
    - ENOMEM ≠ 0 := by
  refine ⟨by decide, by decide,
    ⟨[L2pEvent.submit ⟨0xea, 1, 2 ^ 64 - 64, 64⟩, L2pEvent.update (2 ^ 64 - 64) 64,
      L2pEvent.submit ⟨0xea, 1, 0, 64⟩, L2pEvent.update 0 64],
      by decide, by decide, by decide, by decide⟩,
    fun _ _ _ => rfl, fun _ _ _ _ => rfl, fun _ => rfl, by decide⟩

/-- For a capacity of at least 1, chunk `k` (counted from 1) exists exactly
when `k` is at most the number of chunks `⌈nlb / cap⌉`. -/
theorem l2p_chunk_exists_iff (nlb cap k : Nat) (hcap : 1 ≤ cap) (hk : 1 ≤ k) :
    (k - 1) * cap < nlb ↔ k ≤ (nlb + cap - 1) / cap := by
  obtain ⟨h1, h2⟩ := l2p_nr_chunks_spec nlb cap hcap
  generalize (nlb + cap - 1) / cap = N at *
  obtain ⟨j, rfl⟩ : ∃ j, k = j + 1 := ⟨k - 1, by omega⟩
  simp only [Nat.add_sub_cancel]
  constructor
  · intro h
    by_contra hcon
    have : N * cap ≤ j * cap := Nat.mul_le_mul_right cap (by omega)
    omega
  · intro h
    have h2' := h2 (by omega)
    have : j * cap ≤ (N - 1) * cap := Nat.mul_le_mul_right cap (by omega)
    omega

/-- The loop when the callback rejects: started at chunk `k`, with the chunks
`k, ..., k + m - 1` fetched and accepted and chunk `k + m` fetched and
rejected, it leaves with `-EINTR` right after that callback. -/
theorem get_l2p_loop_reject (env : L2pEnv) (len cap ns_id slba nlb : Nat) :
    ∀ (m k fuel : Nat) (c : Wire.nvme_nvm_l2ptbl) (ret : Int),
      c.opcode = nvme_nvm_admin_get_l2p_tbl → c.nsid = ns_id →
      m < fuel → (k + m) * cap < nlb →
      (∀ j, k ≤ j → j ≤ k + m →
        (env.submit j (l2p_chunk_cmd ns_id slba nlb cap j) len).1 = 0) →
      (∀ j, k ≤ j → j < k + m →
        env.update_l2p j (l2p_chunk_slba slba cap j) (l2p_chunk_nlb nlb cap j)
          (env.submit j (l2p_chunk_cmd ns_id slba nlb cap j) len).2 = 0) →
      env.update_l2p (k + m) (l2p_chunk_slba slba cap (k + m)) (l2p_chunk_nlb nlb cap (k + m))
          (env.submit (k + m) (l2p_chunk_cmd ns_id slba nlb cap (k + m)) len).2 ≠ 0 →
      get_l2p_loop env len cap fuel k c (l2p_chunk_slba slba cap k) (nlb - k * cap) ret =
        some (- EINTR, (List.range' k (m + 1)).flatMap (l2p_chunk_events ns_id slba nlb cap)) := by
  intro m
  induction m with
  | zero =>
    intro k fuel c ret hop hns hf hlt hsub _ hrej
    obtain ⟨f, rfl⟩ : ∃ f, fuel = f + 1 := ⟨fuel - 1, by omega⟩
    have hne : nlb - k * cap ≠ 0 := by simp at hlt; omega
    have hc : ({ c with slba := l2p_chunk_slba slba cap k, nlb := min cap (nlb - k * cap) } :
        Wire.nvme_nvm_l2ptbl) = l2p_chunk_cmd ns_id slba nlb cap k := by
      cases c
      simp only [l2p_chunk_cmd, l2p_chunk_nlb] at *
      subst hop hns
      rfl
    have hs := hsub k (Nat.le_refl _) (by omega)
    have hr : env.update_l2p k (l2p_chunk_slba slba cap k) (min cap (nlb - k * cap))
        (env.submit k (l2p_chunk_cmd ns_id slba nlb cap k) len).2 ≠ 0 := by
      simpa [l2p_chunk_nlb] using hrej
    rw [get_l2p_loop]
    simp only [hne, if_false, hc, hs, ne_eq, not_true_eq_false, hr, not_false_eq_true, if_true]
    simp [l2p_chunk_events, l2p_chunk_nlb]
  | succ m ih =>
    intro k fuel c ret hop hns hf hlt hsub hacc hrej
    obtain ⟨f, rfl⟩ : ∃ f, fuel = f + 1 := ⟨fuel - 1, by omega⟩
    have e1 : (k + (m + 1)) * cap = k * cap + cap + m * cap := by ring
    have e2 : (k + 1) * cap = k * cap + cap := by ring
    have hne : nlb - k * cap ≠ 0 := by omega
    have hmin : min cap (nlb - k * cap) = cap := by omega
    have hc : ({ c with slba := l2p_chunk_slba slba cap k, nlb := min cap (nlb - k * cap) } :
        Wire.nvme_nvm_l2ptbl) = l2p_chunk_cmd ns_id slba nlb cap k := by
      cases c
      simp only [l2p_chunk_cmd, l2p_chunk_nlb] at *
      subst hop hns
      rfl
    have hs := hsub k (Nat.le_refl _) (by omega)
    have ha : env.update_l2p k (l2p_chunk_slba slba cap k) (min cap (nlb - k * cap))
        (env.submit k (l2p_chunk_cmd ns_id slba nlb cap k) len).2 = 0 := by
      simpa [l2p_chunk_nlb] using hacc k (Nat.le_refl _) (by omega)
    have hnext : (l2p_chunk_slba slba cap k + min cap (nlb - k * cap)) % 2 ^ 64 =
        l2p_chunk_slba slba cap (k + 1) := by
      rw [hmin]
      simp only [l2p_chunk_slba, two_pow_64, e2]
      omega
    have hrem : nlb - k * cap - min cap (nlb - k * cap) = nlb - (k + 1) * cap := by omega
    have hrec := ih (k + 1) f (l2p_chunk_cmd ns_id slba nlb cap k)
      (env.submit k (l2p_chunk_cmd ns_id slba nlb cap k) len).1 rfl rfl (by omega)
      (by rw [show k + 1 + m = k + (m + 1) by omega]; exact hlt)
      (fun j h1 h2 => hsub j (by omega) (by omega))
      (fun j h1 h2 => hacc j (by omega) (by omega))
      (by rw [show k + 1 + m = k + (m + 1) by omega]; exact hrej)
    rw [get_l2p_loop]
    simp only [hne, if_false, hc, hs, ne_eq, not_true_eq_false, ha, hnext, hrem]
    rw [hs] at hrec
    rw [hrec, List.range'_succ k (m + 1)]
    simp [l2p_chunk_events, l2p_chunk_nlb, List.flatMap_cons]

/-- C2: in a table transfer whose buffer is allocated, whose transport always
succeeds and whose callback accepts chunks 1..k-1 and rejects chunk k, where
chunk k exists (`(k - 1) * cap < nlb`, which for `cap ≥ 1` says that `k` is at
most the number of chunks), `nvme_nvm_get_l2p_tbl` returns `-EINTR` as soon as
the fuel covers `k` iterations, has issued exactly `k` requests and invoked the
callback exactly `k` times, the rejected callback is the last thing it does,
and `-EINTR` differs from the I/O error status `-EIO`. -/
theorem get_l2p_tbl_stops_on_rejection (env : L2pEnv)
    (fuel ns_id max_hw_sectors slba nlb cap k : Nat)
    (hc : l2p_nlb_pr_rq max_hw_sectors = cap) (hslba : slba < 2 ^ 64)
    (halloc : env.kmalloc_ok = true) (hk : 1 ≤ k) (hchunk : (k - 1) * cap < nlb)
    (hsub : ∀ i c len, (env.submit i c len).1 = 0)
    (hacc : ∀ j, j < k - 1 →
      env.update_l2p j ((slba + j * cap) % 2 ^ 64) (min cap (nlb - j * cap))
        (env.submit j (l2p_chunk_cmd ns_id slba nlb cap j) (l2p_len max_hw_sectors)).2 = 0)
    (hrej : env.update_l2p (k - 1) ((slba + (k - 1) * cap) % 2 ^ 64)
        (min cap (nlb - (k - 1) * cap))
        (env.submit (k - 1) (l2p_chunk_cmd ns_id slba nlb cap (k - 1))
          (l2p_len max_hw_sectors)).2 ≠ 0)
    (hfuel : k ≤ fuel) :
    ∃ tr, nvme_nvm_get_l2p_tbl env fuel ns_id max_hw_sectors slba nlb = some (- EINTR, tr) ∧
      (l2p_updates tr).length = k ∧ (l2p_submits tr).length = k ∧
      tr.getLast? = some (L2pEvent.update ((slba + (k - 1) * cap) % 2 ^ 64)
        (min cap (nlb - (k - 1) * cap))) ∧
      - EINTR ≠ - EIO := by
  obtain ⟨m, rfl⟩ : ∃ m, k = m + 1 := ⟨k - 1, by omega⟩
  simp only [Nat.add_sub_cancel] at hchunk hacc hrej ⊢
  have hrun := get_l2p_loop_reject env (l2p_len max_hw_sectors) cap ns_id slba nlb m 0 fuel
    ⟨nvme_nvm_admin_get_l2p_tbl, ns_id, 0, 0⟩ 0 rfl rfl (by omega) (by simpa using hchunk)
    (fun j _ _ => hsub _ _ _)
    (fun j _ h => by simpa [l2p_chunk_slba, l2p_chunk_nlb] using hacc j (by omega))
    (by simpa [l2p_chunk_slba, l2p_chunk_nlb] using hrej)
  have hs0 : l2p_chunk_slba slba cap 0 = slba := by
    simp only [l2p_chunk_slba, Nat.zero_mul, Nat.add_zero]
    exact Nat.mod_eq_of_lt hslba
  rw [hs0] at hrun
  refine ⟨(List.range' 0 (m + 1)).flatMap (l2p_chunk_events ns_id slba nlb cap),
    ?_, ?_, ?_, ?_, by decide⟩
  · simp only [nvme_nvm_get_l2p_tbl, halloc, hc]
    simpa using hrun
  · simp [l2p_updates_chunk_events]
  · simp [l2p_submits_chunk_events]
  · rw [List.range'_concat, List.flatMap_append, List.flatMap_singleton]
    simp [l2p_chunk_events, l2p_chunk_slba, l2p_chunk_nlb, List.getLast?_append]

/-- Witness for C2: the callback rejects chunk 3 of the 20 chunks of a transfer
of 10000 entries at capacity 512. -/
theorem get_l2p_tbl_stops_on_rejection_witness :
    (3 - 1) * 512 < 10000 ∧
    ∃ tr, nvme_nvm_get_l2p_tbl (l2p_env_reject 2) 20 1 8 0 10000 = some (- EINTR, tr) ∧
      (l2p_updates tr).length = 3 ∧ (l2p_submits tr).length = 3 ∧
      tr.getLast? = some (L2pEvent.update ((0 + (3 - 1) * 512) % 2 ^ 64)
        (min 512 (10000 - (3 - 1) * 512))) ∧
      - EINTR ≠ - EIO :=
  ⟨by decide,
    get_l2p_tbl_stops_on_rejection (l2p_env_reject 2) 20 1 8 0 10000 512 3 (by decide)
      (by decide) rfl (by decide) (by decide) (fun _ _ _ => rfl)
      (fun j hj => by
        have : j ≠ 2 := by omega
        simp [l2p_env_reject, this])
      (by simp [l2p_env_reject]) (by decide)⟩

/-! ## Bad-block table -/

/-- The expected block count is below `2 ^ 32`: the conversion of `nr_blks` for
the comparison with the 32-bit `tblks` does not change it. -/
theorem nr_blks_mod (nvmdev : nvm_dev) :
    nvmdev.blks_per_lun * nvmdev.plane_mode % 2 ^ 32 = nvmdev.blks_per_lun * nvmdev.plane_mode := by
  have h := nvmdev.tblsz_fits
  apply Nat.mod_eq_of_lt
  have : (2 : Nat) ^ 31 < 2 ^ 32 := by norm_num
  omega

/-- C3: for every bad-block-table response received on a successful round trip
(buffer allocated, transport status 0), if the 4-byte tag is not "BBLT", or the
little-endian version is not 1, or the little-endian total-block count differs
from `blks_per_lun * plane_mode`, then `nvme_nvm_get_bb_tbl` returns `-EINVAL`,
which is neither 0 nor the I/O error `-EIO`, and the caller's array `blks` is
unchanged. -/
theorem get_bb_tbl_rejects_invalid_response (env : BbEnv) (nvmdev : nvm_dev) (ns_id ppa : Nat)
    (blks bb_tbl : Nat → u8) (halloc : env.kzalloc_ok = true)
    (hresp : env.submit ⟨nvme_nvm_admin_get_bb_tbl, ns_id, ppa⟩
      (sizeofStruct false Layout.nvme_nvm_bb_tbl + nvmdev.blks_per_lun * nvmdev.plane_mode) =
        (0, bb_tbl))
    (hbad : ¬ (bb_tbl_tblid bb_tbl 0 = ascii 'B' ∧ bb_tbl_tblid bb_tbl 1 = ascii 'B' ∧
          bb_tbl_tblid bb_tbl 2 = ascii 'L' ∧ bb_tbl_tblid bb_tbl 3 = ascii 'T') ∨
      le16_to_cpu (bb_tbl_verid bb_tbl) ≠ 1 ∨
      le32_to_cpu (bb_tbl_tblks bb_tbl) ≠ nvmdev.blks_per_lun * nvmdev.plane_mode) :
    nvme_nvm_get_bb_tbl env nvmdev ns_id ppa blks = (- EINVAL, blks) ∧
      - EINVAL ≠ 0 ∧ - EINVAL ≠ - EIO := by
  refine ⟨?_, by decide, by decide⟩
  simp only [nvme_nvm_get_bb_tbl, halloc, hresp, nr_blks_mod]
  by_cases htag : bb_tbl_tblid bb_tbl 0 ≠ ascii 'B' ∨ bb_tbl_tblid bb_tbl 1 ≠ ascii 'B' ∨
      bb_tbl_tblid bb_tbl 2 ≠ ascii 'L' ∨ bb_tbl_tblid bb_tbl 3 ≠ ascii 'T'
  · simp [htag]
  · by_cases hver : le16_to_cpu (bb_tbl_verid bb_tbl) ≠ 1
    · simp [htag, hver]
    · by_cases hcnt : le32_to_cpu (bb_tbl_tblks bb_tbl) ≠
          nvmdev.blks_per_lun * nvmdev.plane_mode
      · simp [htag, hver, hcnt]
      · exfalso
        rcases hbad with h | h | h
        · apply h
          simp only [ne_eq, not_or, not_not] at htag
          exact htag
        · exact hver h
        · exact hcnt h

/-- Witness for C3: correct tag and version, block count 3 where the geometry
(2 blocks per unit, 2 planes) gives 4. -/
theorem get_bb_tbl_rejects_invalid_response_witness :
    le32_to_cpu (bb_tbl_tblks (bb_buf 'B' 'B' 'L' 'T' 1 3 9)) = 3 ∧
    bb_dev_2x2.blks_per_lun * bb_dev_2x2.plane_mode = 4 ∧
    nvme_nvm_get_bb_tbl (bb_env (bb_buf 'B' 'B' 'L' 'T' 1 3 9)) bb_dev_2x2 1 0 (fun _ => 0) =
      (- EINVAL, fun _ => 0) ∧ - EINVAL ≠ 0 ∧ - EINVAL ≠ - EIO :=
  ⟨by decide, by decide,
    get_bb_tbl_rejects_invalid_response (bb_env (bb_buf 'B' 'B' 'L' 'T' 1 3 9)) bb_dev_2x2 1 0
      (fun _ => 0) (bb_buf 'B' 'B' 'L' 'T' 1 3 9) rfl rfl (Or.inr (Or.inr (by decide)))⟩

/-- C4: when the tag of the response is not "BBLT", `nvme_nvm_get_bb_tbl`
returns the format rejection `-EINVAL` and leaves `blks` unchanged whatever the
version and the total-block count are: two responses with the same bad tag
give the same status and the same output array. -/
theorem get_bb_tbl_tag_decides_first (env₁ env₂ : BbEnv) (nvmdev : nvm_dev) (ns_id ppa : Nat)
    (blks b₁ b₂ : Nat → u8)
    (halloc₁ : env₁.kzalloc_ok = true) (halloc₂ : env₂.kzalloc_ok = true)
    (hresp₁ : env₁.submit ⟨nvme_nvm_admin_get_bb_tbl, ns_id, ppa⟩
      (sizeofStruct false Layout.nvme_nvm_bb_tbl + nvmdev.blks_per_lun * nvmdev.plane_mode) =
        (0, b₁))
    (hresp₂ : env₂.submit ⟨nvme_nvm_admin_get_bb_tbl, ns_id, ppa⟩
      (sizeofStruct false Layout.nvme_nvm_bb_tbl + nvmdev.blks_per_lun * nvmdev.plane_mode) =
        (0, b₂))
    (hsame : ∀ i, i < 4 → bb_tbl_tblid b₂ i = bb_tbl_tblid b₁ i)
    (hbad : ¬ (bb_tbl_tblid b₁ 0 = ascii 'B' ∧ bb_tbl_tblid b₁ 1 = ascii 'B' ∧
          bb_tbl_tblid b₁ 2 = ascii 'L' ∧ bb_tbl_tblid b₁ 3 = ascii 'T')) :
    nvme_nvm_get_bb_tbl env₁ nvmdev ns_id ppa blks = (- EINVAL, blks) ∧
      nvme_nvm_get_bb_tbl env₂ nvmdev ns_id ppa blks =
        nvme_nvm_get_bb_tbl env₁ nvmdev ns_id ppa blks := by
  have htag : bb_tbl_tblid b₁ 0 ≠ ascii 'B' ∨ bb_tbl_tblid b₁ 1 ≠ ascii 'B' ∨
      bb_tbl_tblid b₁ 2 ≠ ascii 'L' ∨ bb_tbl_tblid b₁ 3 ≠ ascii 'T' := by
    by_contra hcon
    simp only [ne_eq, not_or, not_not] at hcon
    exact hbad hcon
  have h₁ : nvme_nvm_get_bb_tbl env₁ nvmdev ns_id ppa blks = (- EINVAL, blks) := by
    simp only [nvme_nvm_get_bb_tbl, halloc₁, hresp₁]
    simp [htag]
  have h₂ : nvme_nvm_get_bb_tbl env₂ nvmdev ns_id ppa blks = (- EINVAL, blks) := by
    simp only [nvme_nvm_get_bb_tbl, halloc₂, hresp₂, hsame 0 (by decide), hsame 1 (by decide),
      hsame 2 (by decide), hsame 3 (by decide)]
    simp [htag]
  exact ⟨h₁, h₂.trans h₁.symm⟩

/-- Witness for C4: tag "XXXX" with version 1 and count 4 (both right for the
device), and with version 7 and count 3. -/
theorem get_bb_tbl_tag_decides_first_witness :
    nvme_nvm_get_bb_tbl (bb_env (bb_buf 'X' 'X' 'X' 'X' 1 4 9)) bb_dev_2x2 1 0 (fun _ => 0) =
        (- EINVAL, fun _ => 0) ∧
      nvme_nvm_get_bb_tbl (bb_env (bb_buf 'X' 'X' 'X' 'X' 7 3 9)) bb_dev_2x2 1 0 (fun _ => 0) =
        nvme_nvm_get_bb_tbl (bb_env (bb_buf 'X' 'X' 'X' 'X' 1 4 9)) bb_dev_2x2 1 0 (fun _ => 0) :=
  get_bb_tbl_tag_decides_first (bb_env (bb_buf 'X' 'X' 'X' 'X' 1 4 9))
    (bb_env (bb_buf 'X' 'X' 'X' 'X' 7 3 9)) bb_dev_2x2 1 0 (fun _ => 0)
    (bb_buf 'X' 'X' 'X' 'X' 1 4 9) (bb_buf 'X' 'X' 'X' 'X' 7 3 9) rfl rfl rfl rfl
    (by decide) (by decide)

/-- C5: for every device geometry and every response received on a successful
round trip whose tag is "BBLT", whose version is 1 and whose total-block count
equals `blks_per_lun * plane_mode`, `nvme_nvm_get_bb_tbl` returns 0, the first
`blks_per_lun * plane_mode` bytes of the caller's array are, in order, the
status bytes `bb_tbl->blk` that trail the header of the response, and the
bytes of the array from that index on are unchanged. -/
theorem get_bb_tbl_copies_status_bytes (env : BbEnv) (nvmdev : nvm_dev) (ns_id ppa : Nat)
    (blks bb_tbl : Nat → u8) (halloc : env.kzalloc_ok = true)
    (hresp : env.submit ⟨nvme_nvm_admin_get_bb_tbl, ns_id, ppa⟩
      (sizeofStruct false Layout.nvme_nvm_bb_tbl + nvmdev.blks_per_lun * nvmdev.plane_mode) =
        (0, bb_tbl))
    (htag : bb_tbl_tblid bb_tbl 0 = ascii 'B' ∧ bb_tbl_tblid bb_tbl 1 = ascii 'B' ∧
      bb_tbl_tblid bb_tbl 2 = ascii 'L' ∧ bb_tbl_tblid bb_tbl 3 = ascii 'T')
    (hver : le16_to_cpu (bb_tbl_verid bb_tbl) = 1)
    (hcnt : le32_to_cpu (bb_tbl_tblks bb_tbl) = nvmdev.blks_per_lun * nvmdev.plane_mode) :
    (nvme_nvm_get_bb_tbl env nvmdev ns_id ppa blks).1 = 0 ∧
      (∀ i, i < nvmdev.blks_per_lun * nvmdev.plane_mode →
        (nvme_nvm_get_bb_tbl env nvmdev ns_id ppa blks).2 i =
          bb_tbl (fieldOff false Layout.nvme_nvm_bb_tbl "blk" + i)) ∧
      (∀ i, nvmdev.blks_per_lun * nvmdev.plane_mode ≤ i →
        (nvme_nvm_get_bb_tbl env nvmdev ns_id ppa blks).2 i = blks i) := by
  obtain ⟨t0, t1, t2, t3⟩ := htag
  have hrun : nvme_nvm_get_bb_tbl env nvmdev ns_id ppa blks =
      (0, memcpy blks (bb_tbl_blk bb_tbl) (nvmdev.blks_per_lun * nvmdev.plane_mode)) := by
    simp only [nvme_nvm_get_bb_tbl, halloc, hresp, nr_blks_mod]
    simp [t0, t1, t2, t3, hver, hcnt]
  rw [hrun]
  refine ⟨rfl, ?_, ?_⟩
  · intro i hi
    simp [memcpy, hi, bb_tbl_blk]
  · intro i hi
    have : ¬ i < nvmdev.blks_per_lun * nvmdev.plane_mode := by omega
    simp [memcpy, this]

/-- Witness for C5: a well-formed table of 4 blocks, all with status 9, for a
device with 2 blocks per unit and 2 planes. -/
theorem get_bb_tbl_copies_status_bytes_witness :
    (nvme_nvm_get_bb_tbl (bb_env (bb_buf 'B' 'B' 'L' 'T' 1 4 9)) bb_dev_2x2 1 0
        (fun _ => 0)).1 = 0 ∧
      (∀ i, i < bb_dev_2x2.blks_per_lun * bb_dev_2x2.plane_mode →
        (nvme_nvm_get_bb_tbl (bb_env (bb_buf 'B' 'B' 'L' 'T' 1 4 9)) bb_dev_2x2 1 0
          (fun _ => 0)).2 i =
          bb_buf 'B' 'B' 'L' 'T' 1 4 9 (fieldOff false Layout.nvme_nvm_bb_tbl "blk" + i)) ∧
      (∀ i, bb_dev_2x2.blks_per_lun * bb_dev_2x2.plane_mode ≤ i →
        (nvme_nvm_get_bb_tbl (bb_env (bb_buf 'B' 'B' 'L' 'T' 1 4 9)) bb_dev_2x2 1 0
          (fun _ => 0)).2 i = (fun _ => 0) i) :=
  get_bb_tbl_copies_status_bytes (bb_env (bb_buf 'B' 'B' 'L' 'T' 1 4 9)) bb_dev_2x2 1 0
    (fun _ => 0) (bb_buf 'B' 'B' 'L' 'T' 1 4 9) rfl rfl (by decide) (by decide) (by decide)

/-! ## Identify -/

/-- An iteration returns from the function exactly when the group is rejected,
and then with `-EINVAL`. -/
theorem init_grps_body_fst (MLC : u8) (src : Wire.nvme_nvm_id_group) (dst : Generic.nvm_id_group) :
    (init_grps_body MLC src dst).1 =
      if mlc_pairs_exceed MLC src then some (- EINVAL) else none := by
  unfold init_grps_body mlc_pairs_exceed
  by_cases h1 : src.fmtype = MLC
  · by_cases h2 : NVME_NVM_LP_MLC_PAIRS < le16_to_cpu src.lptbl.mlc.num_pairs
    · simp [init_grps_scalars, h1, h2]
    · simp [init_grps_scalars, h1, h2]
  · simp [init_grps_scalars, h1]

/-- The loop writes no group slot outside the indices it runs over. -/
theorem init_grps_loop_groups_outside (MLC : u8) (src : Wire.nvme_nvm_id) :
    ∀ (n i : Nat) (x : Generic.nvm_id) (j : Nat), j < i ∨ i + n ≤ j →
      (init_grps_loop MLC src n i x).2.groups j = x.groups j := by
  intro n
  induction n with
  | zero => intro i x j _; rfl
  | succ n ih =>
    intro i x j hj
    have hji : j ≠ i := by omega
    rw [init_grps_loop]
    cases h : (init_grps_body MLC (src.groups i) (x.groups i)).1 with
    | some e => simp [Generic.nvm_id.setGroup, hji]
    | none =>
      simp only []
      rw [ih (i + 1) _ j (by omega)]
      simp [Generic.nvm_id.setGroup, hji]

/-- The loop writes nothing but group slots. -/
theorem init_grps_loop_header (MLC : u8) (src : Wire.nvme_nvm_id) :
    ∀ (n i : Nat) (x : Generic.nvm_id),
      (init_grps_loop MLC src n i x).2.ver_id = x.ver_id ∧
      (init_grps_loop MLC src n i x).2.vmnt = x.vmnt ∧
      (init_grps_loop MLC src n i x).2.cgrps = x.cgrps ∧
      (init_grps_loop MLC src n i x).2.cap = x.cap ∧
      (init_grps_loop MLC src n i x).2.dom = x.dom ∧
      (init_grps_loop MLC src n i x).2.ppaf = x.ppaf := by
  intro n
  induction n with
  | zero => intro i x; exact ⟨rfl, rfl, rfl, rfl, rfl, rfl⟩
  | succ n ih =>
    intro i x
    rw [init_grps_loop]
    cases h : (init_grps_body MLC (src.groups i) (x.groups i)).1 with
    | some e => exact ⟨rfl, rfl, rfl, rfl, rfl, rfl⟩
    | none => exact ih (i + 1) _

/-- The loop when no group it runs over is rejected: it returns 0 and every
slot it runs over holds the result of its iteration. -/
theorem init_grps_loop_ok (MLC : u8) (src : Wire.nvme_nvm_id) :
    ∀ (n i : Nat) (x : Generic.nvm_id),
      (∀ j, i ≤ j → j < i + n → ¬ mlc_pairs_exceed MLC (src.groups j)) →
      (init_grps_loop MLC src n i x).1 = 0 ∧
      ∀ j, i ≤ j → j < i + n →
        (init_grps_loop MLC src n i x).2.groups j =
          (init_grps_body MLC (src.groups j) (x.groups j)).2 := by
  intro n
  induction n with
  | zero =>
    intro i x _
    exact ⟨rfl, fun j h1 h2 => by omega⟩
  | succ n ih =>
    intro i x hok
    have hi : (init_grps_body MLC (src.groups i) (x.groups i)).1 = none := by
      rw [init_grps_body_fst, if_neg (hok i (Nat.le_refl _) (by omega))]
    obtain ⟨h1, h2⟩ := ih (i + 1)
      (x.setGroup i (init_grps_body MLC (src.groups i) (x.groups i)).2)
      (fun j ha hb => hok j (by omega) (by omega))
    rw [init_grps_loop]
    simp only [hi]
    refine ⟨h1, ?_⟩
    intro j ha hb
    by_cases hji : j = i
    · subst hji
      rw [init_grps_loop_groups_outside MLC src n (j + 1) _ j (by omega)]
      simp [Generic.nvm_id.setGroup]
    · rw [h2 j (by omega) (by omega)]
      simp [Generic.nvm_id.setGroup, hji]

/-- The loop when `f` is the first rejected group it runs over: it returns
`-EINVAL`, the slots up to `f` hold the result of their iteration and the slots
after `f` are unchanged. -/
theorem init_grps_loop_fail (MLC : u8) (src : Wire.nvme_nvm_id) (f : Nat)
    (hf : mlc_pairs_exceed MLC (src.groups f)) :
    ∀ (n i : Nat) (x : Generic.nvm_id), i ≤ f → f < i + n →
      (∀ j, i ≤ j → j < f → ¬ mlc_pairs_exceed MLC (src.groups j)) →
      (init_grps_loop MLC src n i x).1 = - EINVAL ∧
      (∀ j, i ≤ j → j ≤ f →
        (init_grps_loop MLC src n i x).2.groups j =
          (init_grps_body MLC (src.groups j) (x.groups j)).2) ∧
      (∀ j, f < j → (init_grps_loop MLC src n i x).2.groups j = x.groups j) := by
  intro n
  induction n with
  | zero => intro i x h1 h2; omega
  | succ n ih =>
    intro i x h1 h2 hfirst
    by_cases hif : i = f
    · subst hif
      have hi : (init_grps_body MLC (src.groups i) (x.groups i)).1 = some (- EINVAL) := by
        rw [init_grps_body_fst, if_pos hf]
      rw [init_grps_loop]
      simp only [hi, true_and]
      refine ⟨?_, ?_⟩
      · intro j ha hb
        have : j = i := by omega
        subst this
        simp [Generic.nvm_id.setGroup]
      · intro j hj
        have : j ≠ i := by omega
        simp [Generic.nvm_id.setGroup, this]
    · have hi : (init_grps_body MLC (src.groups i) (x.groups i)).1 = none := by
        rw [init_grps_body_fst, if_neg (hfirst i (Nat.le_refl _) (by omega))]
      obtain ⟨r1, r2, r3⟩ := ih (i + 1)
        (x.setGroup i (init_grps_body MLC (src.groups i) (x.groups i)).2)
        (by omega) (by omega) (fun j ha hb => hfirst j (by omega) hb)
      rw [init_grps_loop]
      simp only [hi]
      refine ⟨r1, ?_, ?_⟩
      · intro j ha hb
        by_cases hji : j = i
        · subst hji
          rw [init_grps_loop_groups_outside MLC src n (j + 1) _ j (by omega)]
          simp [Generic.nvm_id.setGroup]
        · rw [r2 j (by omega) hb]
          simp [Generic.nvm_id.setGroup, hji]
      · intro j hj
        have : j ≠ i := by omega
        rw [r3 j hj]
        simp [Generic.nvm_id.setGroup, this]

/-- The loop reads only the groups of the response it runs over. -/
theorem init_grps_loop_congr (MLC : u8) (src src' : Wire.nvme_nvm_id) :
    ∀ (n i : Nat) (x : Generic.nvm_id),
      (∀ j, i ≤ j → j < i + n → src'.groups j = src.groups j) →
      init_grps_loop MLC src' n i x = init_grps_loop MLC src n i x := by
  intro n
  induction n with
  | zero => intro i x _; rfl
  | succ n ih =>
    intro i x h
    rw [init_grps_loop, init_grps_loop, h i (Nat.le_refl _) (by omega)]
    cases hb : (init_grps_body MLC (src.groups i) (x.groups i)).1 with
    | some e => rfl
    | none =>
      simp only []
      exact ih (i + 1) _ (fun j ha hb => h j (by omega) (by omega))

/-- Among the groups `i, ..., i + n - 1` either none is rejected or there is a
first rejected one. -/
theorem first_mlc_pairs_exceed (MLC : u8) (src : Wire.nvme_nvm_id) :
    ∀ (n i : Nat),
      (∀ j, i ≤ j → j < i + n → ¬ mlc_pairs_exceed MLC (src.groups j)) ∨
      ∃ f, i ≤ f ∧ f < i + n ∧ mlc_pairs_exceed MLC (src.groups f) ∧
        ∀ j, i ≤ j → j < f → ¬ mlc_pairs_exceed MLC (src.groups j) := by
  intro n
  induction n with
  | zero => intro i; exact Or.inl (fun j h1 h2 => by omega)
  | succ n ih =>
    intro i
    by_cases hi : mlc_pairs_exceed MLC (src.groups i)
    · exact Or.inr ⟨i, Nat.le_refl _, by omega, hi, fun j h1 h2 => by omega⟩
    · rcases ih (i + 1) with h | ⟨f, h1, h2, h3, h4⟩
      · left
        intro j ha hb
        by_cases hji : j = i
        · subst hji; exact hi
        · exact h j (by omega) (by omega)
      · right
        refine ⟨f, by omega, by omega, h3, ?_⟩
        intro j ha hb
        by_cases hji : j = i
        · subst hji; exact hi
        · exact h4 j (by omega) hb

/-- A loop that returns 0 has rejected none of the groups it ran over. -/
theorem init_grps_loop_zero (MLC : u8) (src : Wire.nvme_nvm_id) (n i : Nat) (x : Generic.nvm_id)
    (h0 : (init_grps_loop MLC src n i x).1 = 0) :
    ∀ j, i ≤ j → j < i + n → ¬ mlc_pairs_exceed MLC (src.groups j) := by
  rcases first_mlc_pairs_exceed MLC src n i with h | ⟨f, h1, h2, h3, h4⟩
  · exact h
  · have := (init_grps_loop_fail MLC src f h3 n i x h1 h2 h4).1
    rw [this] at h0
    exact absurd h0 (by decide)

/-- C6 as stated fails: with two reported groups of which group 0 is a
multi-level-cell group reporting 887 pairs, `init_grps` returns `-EINVAL` and
group 1, whose index is below `min(4, cgrps)`, is not translated: its slot still
holds media type 0 where the translation of source group 1 has media type 5. -/
theorem init_grps_skips_groups_after_rejection :
    1 < min 4 (id_zero 2).cgrps.val ∧
    (init_grps 1 (id_zero 2) (id_resp 1 2 id_group_887 id_group_plain)).1 = - EINVAL ∧
    ((id_resp 1 2 id_group_887 id_group_plain).groups 1).mtype = 5 ∧
    ((init_grps 1 (id_zero 2) (id_resp 1 2 id_group_887 id_group_plain)).2.groups 1).mtype = 0 ∧
    ((init_grps 1 (id_zero 2) (id_resp 1 2 id_group_887 id_group_plain)).2.groups 1).mtype ≠
      (init_grps_body 1 ((id_resp 1 2 id_group_887 id_group_plain).groups 1)
        ((id_zero 2).groups 1)).2.mtype := by
  decide

/-- C6 (as amended): `init_grps` reads and writes only groups with index below
`min(4, cgrps)`, where `cgrps` is the group count that `nvme_nvm_identity` has
copied from the response into `nvm_id`: every group slot with index at or above
`min(4, cgrps)` is unchanged (so with `cgrps = 6` slots 4 and 5 are not written,
and with `cgrps < 4` the slots from `cgrps` on are not written), no member of
`nvm_id` other than group slots is written, the groups of the response at or
above `min(4, cgrps)` have no influence on the result, and when `init_grps`
returns 0 every group below `min(4, cgrps)` has been translated. -/
theorem init_grps_translates_only_reported_groups (MLC : u8) (nvm_id : Generic.nvm_id)
    (nvme_nvm_id : Wire.nvme_nvm_id) :
    (∀ j, min 4 nvm_id.cgrps.val ≤ j →
      (init_grps MLC nvm_id nvme_nvm_id).2.groups j = nvm_id.groups j) ∧
    ((init_grps MLC nvm_id nvme_nvm_id).2.ver_id = nvm_id.ver_id ∧
      (init_grps MLC nvm_id nvme_nvm_id).2.vmnt = nvm_id.vmnt ∧
      (init_grps MLC nvm_id nvme_nvm_id).2.cgrps = nvm_id.cgrps ∧
      (init_grps MLC nvm_id nvme_nvm_id).2.cap = nvm_id.cap ∧
      (init_grps MLC nvm_id nvme_nvm_id).2.dom = nvm_id.dom ∧
      (init_grps MLC nvm_id nvme_nvm_id).2.ppaf = nvm_id.ppaf) ∧
    (∀ other : Wire.nvme_nvm_id,
      (∀ j, j < min 4 nvm_id.cgrps.val → other.groups j = nvme_nvm_id.groups j) →
      init_grps MLC nvm_id other = init_grps MLC nvm_id nvme_nvm_id) ∧
    ((init_grps MLC nvm_id nvme_nvm_id).1 = 0 →
      ∀ j, j < min 4 nvm_id.cgrps.val →
        (init_grps_body MLC (nvme_nvm_id.groups j) (nvm_id.groups j)).1 = none ∧
        (init_grps MLC nvm_id nvme_nvm_id).2.groups j =
          (init_grps_body MLC (nvme_nvm_id.groups j) (nvm_id.groups j)).2) ∧
    (∀ (env : IdEnv) (ns_id : Nat), env.kmalloc_ok = true →
      env.submit ⟨nvme_nvm_admin_identity, ns_id, 0⟩ (sizeofStruct true Layout.nvme_nvm_id) =
        (0, nvme_nvm_id) →
      ∀ j, min 4 nvme_nvm_id.cgrps.val ≤ j →
        (nvme_nvm_identity MLC env ns_id nvm_id).2.groups j = nvm_id.groups j) := by
  refine ⟨?_, ?_, ?_, ?_, ?_⟩
  · intro j hj
    exact init_grps_loop_groups_outside MLC nvme_nvm_id _ 0 nvm_id j (Or.inr (by omega))
  · exact init_grps_loop_header MLC nvme_nvm_id _ 0 nvm_id
  · intro other h
    exact init_grps_loop_congr MLC nvme_nvm_id other _ 0 nvm_id (fun j _ hb => h j (by omega))
  · intro h0 j hj
    have hno := init_grps_loop_zero MLC nvme_nvm_id _ 0 nvm_id h0
    refine ⟨?_, (init_grps_loop_ok MLC nvme_nvm_id _ 0 nvm_id hno).2 j (Nat.zero_le _) (by omega)⟩
    rw [init_grps_body_fst, if_neg (hno j (Nat.zero_le _) (by omega))]
  · intro env ns_id halloc hresp j hj
    simp only [nvme_nvm_identity, halloc, hresp]
    simp only [Bool.not_true, Bool.false_eq_true, if_false, ne_eq, not_true_eq_false]
    rw [init_grps]
    exact init_grps_loop_groups_outside MLC nvme_nvm_id _ 0 _ j (Or.inr (by simpa using hj))

/-- C7: when group `i < min(4, cgrps)` of the response is the first one whose
page-program type is the multi-level-cell tag and whose decoded pair count is
above 886, `init_grps` returns `-EINVAL`, the pair bytes of output group `i` are
unchanged, every output group after `i` is unchanged, and every output group
before `i` holds the result of the translation of its source group. -/
theorem init_grps_rejects_excess_pairs (MLC : u8) (nvm_id : Generic.nvm_id)
    (nvme_nvm_id : Wire.nvme_nvm_id) (i : Nat) (hi : i < min 4 nvm_id.cgrps.val)
    (hmlc : (nvme_nvm_id.groups i).fmtype = MLC)
    (hcnt : 886 < le16_to_cpu (nvme_nvm_id.groups i).lptbl.mlc.num_pairs)
    (hfirst : ∀ j, j < i → ¬ ((nvme_nvm_id.groups j).fmtype = MLC ∧
      886 < le16_to_cpu (nvme_nvm_id.groups j).lptbl.mlc.num_pairs)) :
    (init_grps MLC nvm_id nvme_nvm_id).1 = - EINVAL ∧
    ((init_grps MLC nvm_id nvme_nvm_id).2.groups i).lptbl.mlc.pairs =
      (nvm_id.groups i).lptbl.mlc.pairs ∧
    (∀ j, i < j → (init_grps MLC nvm_id nvme_nvm_id).2.groups j = nvm_id.groups j) ∧
    (∀ j, j < i →
      (init_grps_body MLC (nvme_nvm_id.groups j) (nvm_id.groups j)).1 = none ∧
      (init_grps MLC nvm_id nvme_nvm_id).2.groups j =
        (init_grps_body MLC (nvme_nvm_id.groups j) (nvm_id.groups j)).2) := by
  have hf : mlc_pairs_exceed MLC (nvme_nvm_id.groups i) := ⟨hmlc, hcnt⟩
  have hfirst' : ∀ j, 0 ≤ j → j < i → ¬ mlc_pairs_exceed MLC (nvme_nvm_id.groups j) :=
    fun j _ hj => hfirst j hj
  obtain ⟨r1, r2, r3⟩ := init_grps_loop_fail MLC nvme_nvm_id i hf (min 4 nvm_id.cgrps.val) 0
    nvm_id (Nat.zero_le _) (by omega) hfirst'
  refine ⟨r1, ?_, r3, ?_⟩
  · have := r2 i (Nat.zero_le _) (Nat.le_refl _)
    rw [init_grps, this]
    have hcnt' : NVME_NVM_LP_MLC_PAIRS < le16_to_cpu (nvme_nvm_id.groups i).lptbl.mlc.num_pairs :=
      hcnt
    simp [init_grps_body, init_grps_scalars, hmlc, hcnt']
  · intro j hj
    refine ⟨?_, r2 j (Nat.zero_le _) (by omega)⟩
    rw [init_grps_body_fst, if_neg (hfirst' j (Nat.zero_le _) hj)]

/-- Witness for C7: two reported groups, a plain group 0 and a multi-level-cell
group 1 that reports 887 pairs. -/
theorem init_grps_rejects_excess_pairs_witness :
    le16_to_cpu ((id_resp 1 2 id_group_plain id_group_887).groups 1).lptbl.mlc.num_pairs = 887 ∧
    (init_grps 1 (id_zero 2) (id_resp 1 2 id_group_plain id_group_887)).1 = - EINVAL ∧
    ((init_grps 1 (id_zero 2) (id_resp 1 2 id_group_plain id_group_887)).2.groups 1).lptbl.mlc.pairs
      = ((id_zero 2).groups 1).lptbl.mlc.pairs ∧
    (∀ j, 1 < j → (init_grps 1 (id_zero 2) (id_resp 1 2 id_group_plain id_group_887)).2.groups j =
      (id_zero 2).groups j) ∧
    (∀ j, j < 1 →
      (init_grps_body 1 ((id_resp 1 2 id_group_plain id_group_887).groups j)
        ((id_zero 2).groups j)).1 = none ∧
      (init_grps 1 (id_zero 2) (id_resp 1 2 id_group_plain id_group_887)).2.groups j =
        (init_grps_body 1 ((id_resp 1 2 id_group_plain id_group_887).groups j)
          ((id_zero 2).groups j)).2) :=
  ⟨by decide,
    init_grps_rejects_excess_pairs 1 (id_zero 2) (id_resp 1 2 id_group_plain id_group_887) 1
      (by decide) (by decide) (by decide) (by decide)⟩

/-- C8 as stated fails: for a response that reports one group, a
multi-level-cell group with 887 pairs, `nvme_nvm_identity` returns `-EINVAL`
and the caller's structure is no longer what it was: its version, its group
count and the media type of group 0 hold the values of the response. -/
theorem identity_error_after_partial_write :
    (nvme_nvm_identity 1 (id_env (id_resp 1 1 id_group_887 id_group_plain)) 1 (id_zero 0)).1 =
      - EINVAL ∧
    (nvme_nvm_identity 1 (id_env (id_resp 1 1 id_group_887 id_group_plain)) 1 (id_zero 0)).2.ver_id
      ≠ (id_zero 0).ver_id ∧
    (nvme_nvm_identity 1 (id_env (id_resp 1 1 id_group_887 id_group_plain)) 1 (id_zero 0)).2.cgrps
      ≠ (id_zero 0).cgrps ∧
    ((nvme_nvm_identity 1 (id_env (id_resp 1 1 id_group_887 id_group_plain)) 1
      (id_zero 0)).2.groups 0).mtype ≠ ((id_zero 0).groups 0).mtype ∧
    (nvme_nvm_identity 1 (id_env (id_resp 1 1 id_group_887 id_group_plain)) 1 (id_zero 0)).2 ≠
      id_zero 0 := by
  refine ⟨by decide, by decide, by decide, by decide, ?_⟩
  intro h
  have h' := congrArg Generic.nvm_id.ver_id h
  revert h'
  decide

/-- C8 (as amended): whenever `nvme_nvm_identity` returns an error, one of three
things has happened. The buffer allocation failed: the status is `-ENOMEM` and
`nvm_id` is what it was. The transport failed: the status is `-EIO` and `nvm_id`
is what it was. Or the transport succeeded and some group below
`min(4, cgrps)` was rejected for its pair count: the status is `-EINVAL`;
version, vendor, group count, capability and domain words and the
address-format descriptor hold the values of the response; the group slots up
to and including the first rejected group `i` hold the result of their
iteration of `init_grps`; and the group slots after `i` are what they were. -/
theorem identity_error_effects (MLC : u8) (env : IdEnv) (ns_id : Nat) (nvm_id : Generic.nvm_id)
    (resp : Wire.nvme_nvm_id) (e : Int)
    (hresp : env.submit ⟨nvme_nvm_admin_identity, ns_id, 0⟩ (sizeofStruct true Layout.nvme_nvm_id)
      = (e, resp))
    (herr : (nvme_nvm_identity MLC env ns_id nvm_id).1 ≠ 0) :
    (env.kmalloc_ok = false ∧ nvme_nvm_identity MLC env ns_id nvm_id = (- ENOMEM, nvm_id)) ∨
    (env.kmalloc_ok = true ∧ e ≠ 0 ∧ nvme_nvm_identity MLC env ns_id nvm_id = (- EIO, nvm_id)) ∨
    (env.kmalloc_ok = true ∧ e = 0 ∧
      (nvme_nvm_identity MLC env ns_id nvm_id).1 = - EINVAL ∧
      (nvme_nvm_identity MLC env ns_id nvm_id).2.ver_id = resp.ver_id ∧
      (nvme_nvm_identity MLC env ns_id nvm_id).2.vmnt = resp.vmnt ∧
      (nvme_nvm_identity MLC env ns_id nvm_id).2.cgrps = resp.cgrps ∧
      (nvme_nvm_identity MLC env ns_id nvm_id).2.cap = le32_to_cpu resp.cap ∧
      (nvme_nvm_identity MLC env ns_id nvm_id).2.dom = le32_to_cpu resp.dom ∧
      (∀ b, b < sizeofStruct true Layout.nvme_nvm_addr_format →
        (nvme_nvm_identity MLC env ns_id nvm_id).2.ppaf b = resp.ppaf b) ∧
      (∀ b, sizeofStruct true Layout.nvme_nvm_addr_format ≤ b →
        (nvme_nvm_identity MLC env ns_id nvm_id).2.ppaf b = nvm_id.ppaf b) ∧
      ∃ i, i < min 4 resp.cgrps.val ∧
        ((resp.groups i).fmtype = MLC ∧ 886 < le16_to_cpu (resp.groups i).lptbl.mlc.num_pairs) ∧
        (∀ j, j < i → ¬ ((resp.groups j).fmtype = MLC ∧
          886 < le16_to_cpu (resp.groups j).lptbl.mlc.num_pairs)) ∧
        (∀ j, j ≤ i → (nvme_nvm_identity MLC env ns_id nvm_id).2.groups j =
          (init_grps_body MLC (resp.groups j) (nvm_id.groups j)).2) ∧
        (∀ j, i < j → (nvme_nvm_identity MLC env ns_id nvm_id).2.groups j = nvm_id.groups j)) := by
  by_cases halloc : env.kmalloc_ok = true
  · by_cases he : e = 0
    · right; right
      subst he
      have hrun : nvme_nvm_identity MLC env ns_id nvm_id =
          init_grps_loop MLC resp (min 4 resp.cgrps.val) 0
            { nvm_id with
              ver_id := resp.ver_id, vmnt := resp.vmnt, cgrps := resp.cgrps,
              cap := le32_to_cpu resp.cap, dom := le32_to_cpu resp.dom,
              ppaf := memcpy nvm_id.ppaf resp.ppaf
                (sizeofStruct true Layout.nvme_nvm_addr_format) } := by
        simp only [nvme_nvm_identity, halloc, hresp, init_grps]
        simp
      rw [hrun] at herr ⊢
      obtain ⟨h1, h2, h3, h4, h5, h6⟩ := init_grps_loop_header MLC resp (min 4 resp.cgrps.val) 0
        { nvm_id with
          ver_id := resp.ver_id, vmnt := resp.vmnt, cgrps := resp.cgrps,
          cap := le32_to_cpu resp.cap, dom := le32_to_cpu resp.dom,
          ppaf := memcpy nvm_id.ppaf resp.ppaf (sizeofStruct true Layout.nvme_nvm_addr_format) }
      rcases first_mlc_pairs_exceed MLC resp (min 4 resp.cgrps.val) 0 with hno | ⟨f, f1, f2, f3, f4⟩
      · exact absurd (init_grps_loop_ok MLC resp _ 0 _ hno).1 herr
      · obtain ⟨r1, r2, r3⟩ := init_grps_loop_fail MLC resp f f3 (min 4 resp.cgrps.val) 0
          { nvm_id with
            ver_id := resp.ver_id, vmnt := resp.vmnt, cgrps := resp.cgrps,
            cap := le32_to_cpu resp.cap, dom := le32_to_cpu resp.dom,
            ppaf := memcpy nvm_id.ppaf resp.ppaf
              (sizeofStruct true Layout.nvme_nvm_addr_format) } f1 f2 f4
        refine ⟨halloc, rfl, r1, h1, h2, h3, h4, h5, ?_, ?_, f, by omega, f3,
          fun j hj => f4 j (Nat.zero_le _) hj, fun j hj => r2 j (Nat.zero_le _) hj, r3⟩
        · intro b hb
          rw [h6]
          simp [memcpy, hb]
        · intro b hb
          rw [h6]
          have : ¬ b < sizeofStruct true Layout.nvme_nvm_addr_format := by omega
          simp [memcpy, this]
    · right; left
      refine ⟨halloc, he, ?_⟩
      simp only [nvme_nvm_identity, halloc, hresp]
      simp [he]
  · left
    have hf : env.kmalloc_ok = false := by simpa using halloc
    refine ⟨hf, ?_⟩
    simp [nvme_nvm_identity, hf]

/-- Witness for C8: the response reports one group, a multi-level-cell group
with 887 pairs. -/
theorem identity_error_effects_witness :
    (nvme_nvm_identity 1 (id_env (id_resp 1 1 id_group_887 id_group_plain)) 1 (id_zero 0)).1 ≠ 0 ∧
    ∃ i, i < min 4 (id_resp 1 1 id_group_887 id_group_plain).cgrps.val ∧
      (∀ j, i < j →
        (nvme_nvm_identity 1 (id_env (id_resp 1 1 id_group_887 id_group_plain)) 1
          (id_zero 0)).2.groups j = (id_zero 0).groups j) := by
  have h := identity_error_effects 1 (id_env (id_resp 1 1 id_group_887 id_group_plain)) 1
    (id_zero 0) (id_resp 1 1 id_group_887 id_group_plain) 0 rfl (by decide)
  refine ⟨by decide, ?_⟩
  rcases h with ⟨h, _⟩ | ⟨_, h, _⟩ | ⟨_, _, _, _, _, _, _, _, _, _, i, hi, _, _, _, hafter⟩
  · exact absurd h (by decide)
  · exact absurd h (by decide)
  · exact ⟨i, hi, hafter⟩

/-- Where `init_grps` returns 0, no group below `min(4, cgrps)` is rejected and
each of their slots holds the result of its iteration. -/
theorem init_grps_zero_groups (MLC : u8) (nvm_id : Generic.nvm_id)
    (nvme_nvm_id : Wire.nvme_nvm_id) (h0 : (init_grps MLC nvm_id nvme_nvm_id).1 = 0) (i : Nat)
    (hi : i < min 4 nvm_id.cgrps.val) :
    ¬ mlc_pairs_exceed MLC (nvme_nvm_id.groups i) ∧
    (init_grps MLC nvm_id nvme_nvm_id).2.groups i =
      (init_grps_body MLC (nvme_nvm_id.groups i) (nvm_id.groups i)).2 := by
  have hno := init_grps_loop_zero MLC nvme_nvm_id _ 0 nvm_id h0
  exact ⟨hno i (Nat.zero_le _) (by omega),
    (init_grps_loop_ok MLC nvme_nvm_id _ 0 nvm_id hno).2 i (Nat.zero_le _) (by omega)⟩

/-- C9: for every group `i < min(4, cgrps)` of an identify response that
`init_grps` decodes with status 0, each 8-bit output member (mtype, fmtype,
num_ch, num_lun, num_pln) equals the source byte; each 16-bit member (num_pg,
num_blk, fpg_sz, csecs, sos, cpar) and each 32-bit member (trdt, trdm, tprt,
tprm, tbet, tbem, mpos, mccap) equals the little-endian value of the source
bytes; when fmtype is not the multi-level-cell tag the pairing table of the
output is unchanged; and when it is, the 8 identifier bytes are the source's
(identifier bytes past 8 unchanged), the pair count is the little-endian value
of the source's and is at most 886, the pair bytes below the pair count are
the source's and the pair bytes from the pair count on are unchanged. -/
theorem init_grps_decodes_fields (MLC : u8) (nvm_id : Generic.nvm_id)
    (nvme_nvm_id : Wire.nvme_nvm_id) (i : Nat) (src : Wire.nvme_nvm_id_group)
    (old dst : Generic.nvm_id_group)
    (h0 : (init_grps MLC nvm_id nvme_nvm_id).1 = 0) (hi : i < min 4 nvm_id.cgrps.val)
    (hsrc : src = nvme_nvm_id.groups i) (hold : old = nvm_id.groups i)
    (hdst : dst = (init_grps MLC nvm_id nvme_nvm_id).2.groups i) :
    (dst.mtype = src.mtype ∧ dst.fmtype = src.fmtype ∧ dst.num_ch = src.num_ch ∧
      dst.num_lun = src.num_lun ∧ dst.num_pln = src.num_pln) ∧
    (dst.num_pg = src.num_pg.b0.val + 256 * src.num_pg.b1.val ∧
      dst.num_blk = src.num_blk.b0.val + 256 * src.num_blk.b1.val ∧
      dst.fpg_sz = src.fpg_sz.b0.val + 256 * src.fpg_sz.b1.val ∧
      dst.csecs = src.csecs.b0.val + 256 * src.csecs.b1.val ∧
      dst.sos = src.sos.b0.val + 256 * src.sos.b1.val ∧
      dst.cpar = src.cpar.b0.val + 256 * src.cpar.b1.val) ∧
    (dst.trdt = src.trdt.b0.val + 256 * src.trdt.b1.val + 65536 * src.trdt.b2.val +
        16777216 * src.trdt.b3.val ∧
      dst.trdm = src.trdm.b0.val + 256 * src.trdm.b1.val + 65536 * src.trdm.b2.val +
        16777216 * src.trdm.b3.val ∧
      dst.tprt = src.tprt.b0.val + 256 * src.tprt.b1.val + 65536 * src.tprt.b2.val +
        16777216 * src.tprt.b3.val ∧
      dst.tprm = src.tprm.b0.val + 256 * src.tprm.b1.val + 65536 * src.tprm.b2.val +
        16777216 * src.tprm.b3.val ∧
      dst.tbet = src.tbet.b0.val + 256 * src.tbet.b1.val + 65536 * src.tbet.b2.val +
        16777216 * src.tbet.b3.val ∧
      dst.tbem = src.tbem.b0.val + 256 * src.tbem.b1.val + 65536 * src.tbem.b2.val +
        16777216 * src.tbem.b3.val ∧
      dst.mpos = src.mpos.b0.val + 256 * src.mpos.b1.val + 65536 * src.mpos.b2.val +
        16777216 * src.mpos.b3.val ∧
      dst.mccap = src.mccap.b0.val + 256 * src.mccap.b1.val + 65536 * src.mccap.b2.val +
        16777216 * src.mccap.b3.val) ∧
    (src.fmtype ≠ MLC →
      dst.lptbl.id = old.lptbl.id ∧ dst.lptbl.mlc.num_pairs = old.lptbl.mlc.num_pairs ∧
      dst.lptbl.mlc.pairs = old.lptbl.mlc.pairs) ∧
    (src.fmtype = MLC →
      (∀ b, b < 8 → dst.lptbl.id b = src.lptbl.id b) ∧
      (∀ b, 8 ≤ b → dst.lptbl.id b = old.lptbl.id b) ∧
      dst.lptbl.mlc.num_pairs =
        src.lptbl.mlc.num_pairs.b0.val + 256 * src.lptbl.mlc.num_pairs.b1.val ∧
      dst.lptbl.mlc.num_pairs ≤ 886 ∧
      (∀ b, b < dst.lptbl.mlc.num_pairs → dst.lptbl.mlc.pairs b = src.lptbl.mlc.pairs b) ∧
      (∀ b, dst.lptbl.mlc.num_pairs ≤ b → dst.lptbl.mlc.pairs b = old.lptbl.mlc.pairs b)) := by
  obtain ⟨hno, hgrp⟩ := init_grps_zero_groups MLC nvm_id nvme_nvm_id h0 i hi
  rw [← hdst, ← hsrc, ← hold] at hgrp
  rw [← hsrc] at hno
  subst hgrp
  by_cases hm : src.fmtype = MLC
  · have hle : ¬ NVME_NVM_LP_MLC_PAIRS < le16_to_cpu src.lptbl.mlc.num_pairs :=
      fun h => hno ⟨hm, h⟩
    have hle' : le16_to_cpu src.lptbl.mlc.num_pairs ≤ 886 := by
      simpa [NVME_NVM_LP_MLC_PAIRS] using hle
    have hle2 : ¬ NVME_NVM_LP_MLC_PAIRS <
        src.lptbl.mlc.num_pairs.b0.val + 256 * src.lptbl.mlc.num_pairs.b1.val := by
      simpa [le16_to_cpu] using hle
    refine ⟨?_, ?_, ?_, fun h => absurd hm h, fun _ => ⟨?_, ?_, ?_, ?_, ?_, ?_⟩⟩
    · simp [init_grps_body, init_grps_scalars, hm, hle]
    · simp [init_grps_body, init_grps_scalars, hm, hle2, le16_to_cpu]
    · simp [init_grps_body, init_grps_scalars, hm, hle, le32_to_cpu]
    · intro b hb
      simp [init_grps_body, init_grps_scalars, hm, hle, memcpy, hb]
    · intro b hb
      have : ¬ b < 8 := by omega
      simp [init_grps_body, init_grps_scalars, hm, hle, memcpy, this]
    · simp [init_grps_body, init_grps_scalars, hm, hle2, le16_to_cpu]
    · simpa [init_grps_body, init_grps_scalars, hm, hle] using hle'
    · intro b hb
      have hb' : b < le16_to_cpu src.lptbl.mlc.num_pairs := by
        simpa [init_grps_body, init_grps_scalars, hm, hle] using hb
      simp [init_grps_body, init_grps_scalars, hm, hle, memcpy, hb']
    · intro b hb
      have hb' : ¬ b < le16_to_cpu src.lptbl.mlc.num_pairs := by
        have : le16_to_cpu src.lptbl.mlc.num_pairs ≤ b := by
          simpa [init_grps_body, init_grps_scalars, hm, hle] using hb
        omega
      simp [init_grps_body, init_grps_scalars, hm, hle, memcpy, hb']
  · refine ⟨?_, ?_, ?_, fun _ => ?_, fun h => absurd h hm⟩
    · simp [init_grps_body, init_grps_scalars, hm]
    · simp [init_grps_body, init_grps_scalars, hm, le16_to_cpu]
    · simp [init_grps_body, init_grps_scalars, hm, le32_to_cpu]
    · simp [init_grps_body, init_grps_scalars, hm]

/-- Witness for C9: one reported multi-level-cell group with 2 pairs. -/
theorem init_grps_decodes_fields_witness :
    (init_grps 1 (id_zero 1) (id_resp 1 1 id_group_mlc2 id_group_plain)).1 = 0 ∧
    ((init_grps 1 (id_zero 1) (id_resp 1 1 id_group_mlc2 id_group_plain)).2.groups 0).mtype =
      id_group_mlc2.mtype ∧
    ((init_grps 1 (id_zero 1) (id_resp 1 1 id_group_mlc2 id_group_plain)).2.groups
      0).lptbl.mlc.num_pairs ≤ 886 :=
  have h := init_grps_decodes_fields 1 (id_zero 1) (id_resp 1 1 id_group_mlc2 id_group_plain) 0
    id_group_mlc2 ((id_zero 1).groups 0)
    ((init_grps 1 (id_zero 1) (id_resp 1 1 id_group_mlc2 id_group_plain)).2.groups 0)
    (by decide) (by decide) rfl rfl rfl
  ⟨by decide, h.1.1, (h.2.2.2.2 rfl).2.2.2.1⟩

/-! ## Response layouts and the size assertions -/

/-- C11, the code against its own assertion: the address-format descriptor
declared in the file (twelve 8-bit members and four reserved bytes) is 16
bytes, where `_nvme_nvm_check_size` asserts 128; it is the only member of the
identify response whose declared size misses its assertion (the response is
4096 bytes and each group 960, as asserted), it sits at offset 12 of the
response, and `nvme_nvm_identity` copies exactly `sizeof`, 16, bytes of it: of
a descriptor whose bytes are all 7, bytes 0 to 15 reach the caller's zeroed
structure and byte 16 on do not. -/
theorem addr_format_breaks_size_assertion :
    ("nvme_nvm_addr_format", sizeofStruct true Layout.nvme_nvm_addr_format, 128) ∈
      nvme_nvm_check_size ∧
    sizeofStruct true Layout.nvme_nvm_addr_format = 16 ∧
    sizeofStruct true Layout.nvme_nvm_addr_format ≠ 128 ∧
    sizeofStruct false Layout.nvme_nvm_addr_format ≠ 128 ∧
    build_bug_on_fired nvme_nvm_check_size = ["nvme_nvm_addr_format", "nvme_nvm_bb_tbl"] ∧
    sizeofStruct true Layout.nvme_nvm_id = 4096 ∧
    sizeofStruct true Layout.nvme_nvm_id_group = 960 ∧
    layoutFrom true 0 Layout.nvme_nvm_id =
      [("ver_id", 0), ("vmnt", 1), ("cgrps", 2), ("res", 3), ("cap", 4), ("dom", 8),
        ("ppaf", 12), ("resv", 28), ("groups", 256)] ∧
    (nvme_nvm_identity 1 (id_env id_resp_ppaf7) 1 (id_zero 0)).1 = 0 ∧
    (nvme_nvm_identity 1 (id_env id_resp_ppaf7) 1 (id_zero 0)).2.ppaf 15 = 7 ∧
    (nvme_nvm_identity 1 (id_env id_resp_ppaf7) 1 (id_zero 0)).2.ppaf 16 = 0 ∧
    (nvme_nvm_identity 1 (id_env id_resp_ppaf7) 1 (id_zero 0)).2.ppaf 127 = 0 := by
  decide

/-- C12, the code against its own assertion: the fixed header of the bad-block
table declared in the file is 64 bytes, where `_nvme_nvm_check_size` asserts
512, and the status bytes `blk` start at offset 64. For a device with 2 blocks
per unit and 2 planes, `tblsz`, the size `nvme_nvm_get_bb_tbl` gives to
`kzalloc` and to the transport, is 68 and not 516: a transport that serves
only a buffer of 516 bytes is refused (`-EIO`), one that serves only a buffer
of 68 bytes is accepted, and the bytes that reach the caller's array are
bytes 64 to 67 of the response (9 here), not bytes 512 to 515 (7 here). -/
theorem bb_tbl_breaks_size_assertion :
    ("nvme_nvm_bb_tbl", sizeofStruct false Layout.nvme_nvm_bb_tbl, 512) ∈ nvme_nvm_check_size ∧
    sizeofStruct false Layout.nvme_nvm_bb_tbl = 64 ∧
    sizeofStruct false Layout.nvme_nvm_bb_tbl ≠ 512 ∧
    fieldOff false Layout.nvme_nvm_bb_tbl "blk" = 64 ∧
    bb_tbl_tblsz bb_dev_2x2 = 64 + 4 ∧ bb_tbl_tblsz bb_dev_2x2 ≠ 512 + 4 ∧
    (nvme_nvm_get_bb_tbl (bb_env_only_size (512 + 4) bb_buf_split) bb_dev_2x2 1 0
      (fun _ => 0)).1 = - EIO ∧
    (nvme_nvm_get_bb_tbl (bb_env_only_size (bb_tbl_tblsz bb_dev_2x2) bb_buf_split) bb_dev_2x2 1 0
      (fun _ => 0)).1 = 0 ∧
    (∀ i, i < 4 →
      (nvme_nvm_get_bb_tbl (bb_env_only_size (bb_tbl_tblsz bb_dev_2x2) bb_buf_split) bb_dev_2x2
        1 0 (fun _ => 0)).2 i = bb_buf_split (64 + i) ∧
      bb_buf_split (64 + i) = 9 ∧ bb_buf_split (512 + i) = 7) := by
  decide

/-! ## Namespace detection -/

/-- C20: `nvme_nvm_ns_supported` returns 1 exactly when the PCI vendor id is
0x1d1d, the PCI device id is 0x1f1f, 0x2807 or 0x0e01 and the first
vendor-specific byte of the namespace identify data is 1; otherwise it returns
0; and two calls that agree on these three values return the same. -/
theorem ns_supported_iff (pdev : pci_dev) (id : nvme_id_ns) :
    (nvme_nvm_ns_supported pdev id = 1 ↔
      pdev.vendor = 0x1d1d ∧
        (pdev.device = 0x1f1f ∨ pdev.device = 0x2807 ∨ pdev.device = 0x0e01) ∧
        id.vs 0 = 1) ∧
    (¬ (pdev.vendor = 0x1d1d ∧
        (pdev.device = 0x1f1f ∨ pdev.device = 0x2807 ∨ pdev.device = 0x0e01) ∧
        id.vs 0 = 1) → nvme_nvm_ns_supported pdev id = 0) ∧
    (∀ (pdev' : pci_dev) (id' : nvme_id_ns), pdev'.vendor = pdev.vendor →
      pdev'.device = pdev.device → id'.vs 0 = id.vs 0 →
      nvme_nvm_ns_supported pdev' id' = nvme_nvm_ns_supported pdev id) := by
  refine ⟨?_, ?_, ?_⟩
  · unfold nvme_nvm_ns_supported PCI_VENDOR_ID_CNEX PCI_DEVICE_ID_CNEX_QEMU PCI_DEVICE_ID_CNEX_WL
    constructor
    · intro h
      split at h
      · rename_i h1; exact ⟨h1.1, Or.inl h1.2.1, h1.2.2⟩
      · split at h
        · rename_i h1; exact ⟨h1.1, Or.inr (Or.inl h1.2.1), h1.2.2⟩
        · split at h
          · rename_i h1; exact ⟨h1.1, Or.inr (Or.inr h1.2.1), h1.2.2⟩
          · exact absurd h (by decide)
    · rintro ⟨hv, hd | hd | hd, hs⟩ <;> simp [hv, hd, hs]
  · intro h
    unfold nvme_nvm_ns_supported PCI_VENDOR_ID_CNEX PCI_DEVICE_ID_CNEX_QEMU PCI_DEVICE_ID_CNEX_WL
    have n1 : ¬ (pdev.vendor = 0x1d1d ∧ pdev.device = 0x1f1f ∧ id.vs 0 = 0x1) :=
      fun h1 => h ⟨h1.1, Or.inl h1.2.1, h1.2.2⟩
    have n2 : ¬ (pdev.vendor = 0x1d1d ∧ pdev.device = 0x2807 ∧ id.vs 0 = 0x1) :=
      fun h1 => h ⟨h1.1, Or.inr (Or.inl h1.2.1), h1.2.2⟩
    have n3 : ¬ (pdev.vendor = 0x1d1d ∧ pdev.device = 0x0e01 ∧ id.vs 0 = 0x1) :=
      fun h1 => h ⟨h1.1, Or.inr (Or.inr h1.2.1), h1.2.2⟩
    rw [if_neg n1, if_neg n2, if_neg n3]
  · intro pdev' id' hv hd hs
    simp only [nvme_nvm_ns_supported, hv, hd, hs]

/-! ## Table transfer: transport failure and termination -/

/-- The loop when the transport fails: started at chunk `k`, with the chunks
`k, ..., k + m - 1` fetched and accepted and the request for chunk `k + m`
failing, it leaves with `-EIO` right after that request. -/
theorem get_l2p_loop_transport_fail (env : L2pEnv) (len cap ns_id slba nlb : Nat) :
    ∀ (m k fuel : Nat) (c : Wire.nvme_nvm_l2ptbl) (ret : Int),
      c.opcode = nvme_nvm_admin_get_l2p_tbl → c.nsid = ns_id →
      m < fuel → (k + m) * cap < nlb →
      (∀ j, k ≤ j → j < k + m →
        (env.submit j (l2p_chunk_cmd ns_id slba nlb cap j) len).1 = 0) →
      (∀ j, k ≤ j → j < k + m →
        env.update_l2p j (l2p_chunk_slba slba cap j) (l2p_chunk_nlb nlb cap j)
          (env.submit j (l2p_chunk_cmd ns_id slba nlb cap j) len).2 = 0) →
      (env.submit (k + m) (l2p_chunk_cmd ns_id slba nlb cap (k + m)) len).1 ≠ 0 →
      get_l2p_loop env len cap fuel k c (l2p_chunk_slba slba cap k) (nlb - k * cap) ret =
        some (- EIO, (List.range' k m).flatMap (l2p_chunk_events ns_id slba nlb cap) ++
          [L2pEvent.submit (l2p_chunk_cmd ns_id slba nlb cap (k + m))]) := by
  intro m
  induction m with
  | zero =>
    intro k fuel c ret hop hns hf hlt _ _ hfail
    obtain ⟨f, rfl⟩ : ∃ f, fuel = f + 1 := ⟨fuel - 1, by omega⟩
    have hne : nlb - k * cap ≠ 0 := by simp at hlt; omega
    have hc : ({ c with slba := l2p_chunk_slba slba cap k, nlb := min cap (nlb - k * cap) } :
        Wire.nvme_nvm_l2ptbl) = l2p_chunk_cmd ns_id slba nlb cap k := by
      cases c
      simp only [l2p_chunk_cmd, l2p_chunk_nlb] at *
      subst hop hns
      rfl
    have hfail' : (env.submit k (l2p_chunk_cmd ns_id slba nlb cap k) len).1 ≠ 0 := by
      simpa using hfail
    rw [get_l2p_loop]
    simp only [hne, if_false, hc, ne_eq, hfail', not_false_eq_true, if_true]
    simp
  | succ m ih =>
    intro k fuel c ret hop hns hf hlt hsub hacc hfail
    obtain ⟨f, rfl⟩ : ∃ f, fuel = f + 1 := ⟨fuel - 1, by omega⟩
    have e1 : (k + (m + 1)) * cap = k * cap + cap + m * cap := by ring
    have e2 : (k + 1) * cap = k * cap + cap := by ring
    have hne : nlb - k * cap ≠ 0 := by omega
    have hmin : min cap (nlb - k * cap) = cap := by omega
    have hc : ({ c with slba := l2p_chunk_slba slba cap k, nlb := min cap (nlb - k * cap) } :
        Wire.nvme_nvm_l2ptbl) = l2p_chunk_cmd ns_id slba nlb cap k := by
      cases c
      simp only [l2p_chunk_cmd, l2p_chunk_nlb] at *
      subst hop hns
      rfl
    have hs := hsub k (Nat.le_refl _) (by omega)
    have ha : env.update_l2p k (l2p_chunk_slba slba cap k) (min cap (nlb - k * cap))
        (env.submit k (l2p_chunk_cmd ns_id slba nlb cap k) len).2 = 0 := by
      simpa [l2p_chunk_nlb] using hacc k (Nat.le_refl _) (by omega)
    have hnext : (l2p_chunk_slba slba cap k + min cap (nlb - k * cap)) % 2 ^ 64 =
        l2p_chunk_slba slba cap (k + 1) := by
      rw [hmin]
      simp only [l2p_chunk_slba, two_pow_64, e2]
      omega
    have hrem : nlb - k * cap - min cap (nlb - k * cap) = nlb - (k + 1) * cap := by omega
    have hrec := ih (k + 1) f (l2p_chunk_cmd ns_id slba nlb cap k)
      (env.submit k (l2p_chunk_cmd ns_id slba nlb cap k) len).1 rfl rfl (by omega)
      (by rw [show k + 1 + m = k + (m + 1) by omega]; exact hlt)
      (fun j h1 h2 => hsub j (by omega) (by omega))
      (fun j h1 h2 => hacc j (by omega) (by omega))
      (by rw [show k + 1 + m = k + (m + 1) by omega]; exact hfail)
    rw [get_l2p_loop]
    simp only [hne, if_false, hc, hs, ne_eq, not_true_eq_false, ha, hnext, hrem]
    rw [hs] at hrec
    rw [hrec, List.range'_succ k m]
    simp [l2p_chunk_events, l2p_chunk_nlb, List.flatMap_cons,
      show k + 1 + m = k + (m + 1) by omega]

/-- C16: in a table transfer whose buffer is allocated, whose first `k - 1`
requests succeed with the callback accepting each chunk, and whose `k`-th
request (which exists: `(k - 1) * cap < nlb`) fails with any non-zero code `e`,
`nvme_nvm_get_l2p_tbl` returns `-EIO` whatever `e` is as soon as the fuel
covers `k` iterations, has invoked the callback exactly `k - 1` times and
issued exactly `k` requests, and the failed request is the last thing it
does. -/
theorem get_l2p_tbl_stops_on_transport_failure (env : L2pEnv)
    (fuel ns_id max_hw_sectors slba nlb cap k : Nat) (e : Int)
    (hc : l2p_nlb_pr_rq max_hw_sectors = cap) (hslba : slba < 2 ^ 64)
    (halloc : env.kmalloc_ok = true) (hk : 1 ≤ k) (hchunk : (k - 1) * cap < nlb)
    (hsub : ∀ j, j < k - 1 →
      (env.submit j (l2p_chunk_cmd ns_id slba nlb cap j) (l2p_len max_hw_sectors)).1 = 0)
    (hacc : ∀ j, j < k - 1 →
      env.update_l2p j ((slba + j * cap) % 2 ^ 64) (min cap (nlb - j * cap))
        (env.submit j (l2p_chunk_cmd ns_id slba nlb cap j) (l2p_len max_hw_sectors)).2 = 0)
    (hfail : (env.submit (k - 1) (l2p_chunk_cmd ns_id slba nlb cap (k - 1))
      (l2p_len max_hw_sectors)).1 = e)
    (he : e ≠ 0) (hfuel : k ≤ fuel) :
    ∃ tr, nvme_nvm_get_l2p_tbl env fuel ns_id max_hw_sectors slba nlb = some (- EIO, tr) ∧
      (l2p_updates tr).length = k - 1 ∧ (l2p_submits tr).length = k ∧
      tr.getLast? = some (L2pEvent.submit (l2p_chunk_cmd ns_id slba nlb cap (k - 1))) := by
  obtain ⟨m, rfl⟩ : ∃ m, k = m + 1 := ⟨k - 1, by omega⟩
  simp only [Nat.add_sub_cancel] at hchunk hsub hacc hfail ⊢
  have hrun := get_l2p_loop_transport_fail env (l2p_len max_hw_sectors) cap ns_id slba nlb m 0
    fuel ⟨nvme_nvm_admin_get_l2p_tbl, ns_id, 0, 0⟩ 0 rfl rfl (by omega) (by simpa using hchunk)
    (fun j _ h => hsub j (by omega))
    (fun j _ h => by simpa [l2p_chunk_slba, l2p_chunk_nlb] using hacc j (by omega))
    (by simpa [hfail] using he)
  have hs0 : l2p_chunk_slba slba cap 0 = slba := by
    simp only [l2p_chunk_slba, Nat.zero_mul, Nat.add_zero]
    exact Nat.mod_eq_of_lt hslba
  rw [hs0] at hrun
  refine ⟨(List.range' 0 m).flatMap (l2p_chunk_events ns_id slba nlb cap) ++
    [L2pEvent.submit (l2p_chunk_cmd ns_id slba nlb cap (0 + m))], ?_, ?_, ?_, ?_⟩
  · simp only [nvme_nvm_get_l2p_tbl, halloc, hc]
    simpa using hrun
  · simp [l2p_updates, List.filterMap_append]
    simpa [l2p_updates] using congrArg List.length
      (l2p_updates_chunk_events ns_id slba nlb cap m 0)
  · simp [l2p_submits, List.filterMap_append]
    simpa [l2p_submits] using congrArg List.length
      (l2p_submits_chunk_events ns_id slba nlb cap m 0)
  · simp

/-- Witness for C16: the third of the 20 requests of a transfer of 10000
entries at capacity 512 fails with code 7. -/
theorem get_l2p_tbl_stops_on_transport_failure_witness :
    ∃ tr, nvme_nvm_get_l2p_tbl (l2p_env_fail 2 7) 20 1 8 0 10000 = some (- EIO, tr) ∧
      (l2p_updates tr).length = 3 - 1 ∧ (l2p_submits tr).length = 3 ∧
      tr.getLast? = some (L2pEvent.submit (l2p_chunk_cmd 1 0 10000 512 (3 - 1))) :=
  get_l2p_tbl_stops_on_transport_failure (l2p_env_fail 2 7) 20 1 8 0 10000 512 3 7 (by decide)
    (by decide) rfl (by decide) (by decide)
    (fun j hj => by
      have : j ≠ 2 := by omega
      simp [l2p_env_fail, this])
    (fun j hj => by simp [l2p_env_fail, l2p_env_ok])
    (by simp [l2p_env_fail]) (by decide) (by decide)

/-- The loop leaves within as many iterations as entries remain, whatever the
transport and the callback do, when the per-request capacity is at least 1:
every request asks for at least 1 and at most `cap` entries, the requests ask
for no more than the remaining entries in total, and so there are at most as
many requests as remaining entries. -/
theorem get_l2p_loop_terminates (env : L2pEnv) (len cap : Nat) (hcap : 1 ≤ cap) :
    ∀ (fuel i : Nat) (c : Wire.nvme_nvm_l2ptbl) (s r : Nat) (ret : Int), r ≤ fuel →
      ∃ ret' tr, get_l2p_loop env len cap fuel i c s r ret = some (ret', tr) ∧
        (∀ q ∈ l2p_submits tr, 1 ≤ q.nlb ∧ q.nlb ≤ cap) ∧
        ((l2p_submits tr).map (fun q => q.nlb)).sum ≤ r ∧
        (l2p_submits tr).length ≤ r := by
  intro fuel
  induction fuel with
  | zero =>
    intro i c s r ret hr
    have : r = 0 := by omega
    subst this
    exact ⟨ret, [], by simp [get_l2p_loop], by simp [l2p_submits], by simp [l2p_submits],
      by simp [l2p_submits]⟩
  | succ f ih =>
    intro i c s r ret hr
    by_cases h0 : r = 0
    · subst h0
      exact ⟨ret, [], by simp [get_l2p_loop], by simp [l2p_submits], by simp [l2p_submits],
        by simp [l2p_submits]⟩
    · have hmin1 : 1 ≤ min cap r := by omega
      have hmin2 : min cap r ≤ cap := by omega
      have hmin3 : min cap r ≤ r := by omega
      rw [get_l2p_loop]
      simp only [h0, if_false]
      by_cases hs : (env.submit i { c with slba := s, nlb := min cap r } len).1 = 0
      · by_cases hu : env.update_l2p i s (min cap r)
            (env.submit i { c with slba := s, nlb := min cap r } len).2 = 0
        · obtain ⟨ret', tr, h1, h2, h3, h4⟩ := ih (i + 1) { c with slba := s, nlb := min cap r }
            ((s + min cap r) % 2 ^ 64) (r - min cap r)
            (env.submit i { c with slba := s, nlb := min cap r } len).1 (by omega)
          rw [hs] at h1
          refine ⟨ret', L2pEvent.submit { c with slba := s, nlb := min cap r } ::
            L2pEvent.update s (min cap r) :: tr, ?_, ?_, ?_, ?_⟩
          · simp only [hs, hu, ne_eq, not_true_eq_false, if_false, h1, Option.map_some']
          · intro q hq
            simp only [l2p_submits, List.filterMap_cons] at hq
            rcases List.mem_cons.1 hq with rfl | hq
            · exact ⟨hmin1, hmin2⟩
            · exact h2 q hq
          · simp only [l2p_submits, List.filterMap_cons, List.map_cons, List.sum_cons] at h3 ⊢
            omega
          · simp only [l2p_submits, List.filterMap_cons, List.length_cons] at h4 ⊢
            omega
        · refine ⟨- EINTR, [L2pEvent.submit { c with slba := s, nlb := min cap r },
            L2pEvent.update s (min cap r)], by simp [hs, hu], ?_, ?_, ?_⟩
          · intro q hq
            simp [l2p_submits] at hq
            subst hq
            exact ⟨hmin1, hmin2⟩
          · simp [l2p_submits]
          · simp [l2p_submits]; omega
      · refine ⟨- EIO, [L2pEvent.submit { c with slba := s, nlb := min cap r }],
          by simp [hs], ?_, ?_, ?_⟩
        · intro q hq
          simp [l2p_submits] at hq
          subst hq
          exact ⟨hmin1, hmin2⟩
        · simp [l2p_submits]
        · simp [l2p_submits]; omega

/-- C19: whatever the transport and the callback do, when the per-request
capacity `((max_hw_sectors << 9) mod 2 ^ 32) / 8` is at least 1 the call
returns within `nlb` iterations of the chunk loop: every request asks for at
least 1 and at most `cap` entries, an iteration that goes on asks for
`min cap r ≥ 1` of the `r` remaining entries and leaves fewer than `r`, at most
`nlb` requests are issued, and with `nlb = 0` the loop issues no request and
leaves the status at 0, which the call returns. -/
theorem get_l2p_tbl_terminates (env : L2pEnv) (fuel ns_id max_hw_sectors slba nlb cap : Nat)
    (hc : (max_hw_sectors * 2 ^ 9 % 2 ^ 32) / 8 = cap) (hcap : 1 ≤ cap) (hfuel : nlb ≤ fuel) :
    (∃ ret tr, nvme_nvm_get_l2p_tbl env fuel ns_id max_hw_sectors slba nlb = some (ret, tr) ∧
      (∀ q ∈ l2p_submits tr, 1 ≤ q.nlb ∧ q.nlb ≤ cap) ∧
      (l2p_submits tr).length ≤ nlb) ∧
    (∀ r, 0 < r → 1 ≤ min cap r ∧ r - min cap r < r) ∧
    (∀ (i s : Nat) (c : Wire.nvme_nvm_l2ptbl),
      get_l2p_loop env (l2p_len max_hw_sectors) cap fuel i c s 0 0 = some (0, [])) ∧
    (env.kmalloc_ok = true →
      nvme_nvm_get_l2p_tbl env fuel ns_id max_hw_sectors 0 0 = some (0, [])) := by
  have hc' : l2p_nlb_pr_rq max_hw_sectors = cap := hc
  refine ⟨?_, ?_, ?_, ?_⟩
  · by_cases halloc : env.kmalloc_ok = true
    · obtain ⟨ret', tr, h1, h2, _, h4⟩ := get_l2p_loop_terminates env (l2p_len max_hw_sectors)
        cap hcap fuel 0 ⟨nvme_nvm_admin_get_l2p_tbl, ns_id, 0, 0⟩ slba nlb 0 hfuel
      refine ⟨ret', tr, ?_, h2, h4⟩
      simp only [nvme_nvm_get_l2p_tbl, halloc, hc']
      simpa using h1
    · have hf : env.kmalloc_ok = false := by simpa using halloc
      exact ⟨- ENOMEM, [], by simp [nvme_nvm_get_l2p_tbl, hf], by simp [l2p_submits],
        by simp [l2p_submits]⟩
  · intro r hr
    omega
  · intro i s c
    cases fuel <;> simp [get_l2p_loop]
  · intro halloc
    simp only [nvme_nvm_get_l2p_tbl, halloc]
    cases fuel <;> simp [get_l2p_loop]

/-- Witness for C19: 10000 entries at capacity 512, with a transport that
fails in iteration 2. -/
theorem get_l2p_tbl_terminates_witness :
    ∃ ret tr, nvme_nvm_get_l2p_tbl (l2p_env_fail 2 7) 10000 1 8 0 10000 = some (ret, tr) ∧
      (∀ q ∈ l2p_submits tr, 1 ≤ q.nlb ∧ q.nlb ≤ 512) ∧
      (l2p_submits tr).length ≤ 10000 :=
  (get_l2p_tbl_terminates (l2p_env_fail 2 7) 10000 1 8 0 10000 512 (by decide) (by decide)
    (by decide)).1

/-! ## Commands as bytes -/

theorem two_pow_32 : (2 : Nat) ^ 32 = 4294967296 := by norm_num

/-- A member whose bytes are those of `v` decodes to `v` truncated to its
width. -/
theorem get_le_of_bytes (c : Nat → u8) (off v : Nat) :
    ∀ w, (∀ j, j < w → (c (off + j)).val = v / 256 ^ j % 256) →
      get_le c off w = v % 256 ^ w := by
  intro w
  induction w with
  | zero => intro _; simp [get_le, Nat.mod_one]
  | succ w ih =>
    intro h
    rw [get_le, ih (fun j hj => h j (by omega)), h w (by omega), Nat.mod_pow_succ]

/-- What an assignment leaves at each index. -/
theorem put_le_apply (c : Nat → u8) (off w v i : Nat) :
    put_le c off w v i = if off ≤ i ∧ i < off + w then le_byte v (i - off) else c i := rfl

/-- A member decodes to what was last assigned to it. -/
theorem get_le_put_le (c : Nat → u8) (off w v : Nat) :
    get_le (put_le c off w v) off w = v % 256 ^ w := by
  apply get_le_of_bytes
  intro j hj
  simp [put_le, le_byte, hj]

/-- The conversion of `n - 1` to 16 bits for a count between 1 and 65536. -/
theorem to_u16_pred (n : Nat) (h1 : 1 ≤ n) (h2 : n ≤ 65536) :
    to_u16 ((n : Int) - 1) = n - 1 := by
  unfold to_u16
  have h : ((n : Int) - 1) % 65536 = ((n - 1 : Nat) : Int) := by omega
  rw [h, Int.toNat_ofNat]

/-- The erase command, byte by byte. -/
theorem erase_block_command_apply (op : u8) (ns_id ppa nr_ppas i : Nat) :
    erase_block_command op ns_id ppa nr_ppas i =
      if 48 ≤ i ∧ i < 48 + 2 then le_byte (to_u16 ((nr_ppas : Int) - 1)) (i - 48)
      else if 40 ≤ i ∧ i < 40 + 8 then le_byte ppa (i - 40)
      else if 4 ≤ i ∧ i < 4 + 4 then le_byte ns_id (i - 4)
      else if 0 ≤ i ∧ i < 0 + 1 then le_byte op.val (i - 0)
      else 0 := by
  have h0 : fieldOff false Layout.nvme_nvm_erase_blk "opcode" = 0 := by decide
  have h1 : fieldOff false Layout.nvme_nvm_erase_blk "nsid" = 4 := by decide
  have h2 : fieldOff false Layout.nvme_nvm_erase_blk "spba" = 40 := by decide
  have h3 : fieldOff false Layout.nvme_nvm_erase_blk "length" = 48 := by decide
  simp only [erase_block_command, h0, h1, h2, h3, put_le_apply, zero_command]

/-- The set-bad-block-table command, byte by byte. -/
theorem set_bb_tbl_command_apply (ns_id : Nat) (ppas : Nat → Nat) (nr_ppas type : Int) (i : Nat) :
    set_bb_tbl_command ns_id ppas nr_ppas type i =
      if 50 ≤ i ∧ i < 50 + 1 then le_byte (to_u8 type) (i - 50)
      else if 48 ≤ i ∧ i < 48 + 2 then le_byte (to_u16 (nr_ppas - 1)) (i - 48)
      else if 40 ≤ i ∧ i < 40 + 8 then le_byte (ppas 0) (i - 40)
      else if 4 ≤ i ∧ i < 4 + 4 then le_byte ns_id (i - 4)
      else if 0 ≤ i ∧ i < 0 + 1 then le_byte nvme_nvm_admin_set_bb_tbl (i - 0)
      else 0 := by
  have h0 : fieldOff false Layout.nvme_nvm_setbbtbl "opcode" = 0 := by decide
  have h1 : fieldOff false Layout.nvme_nvm_setbbtbl "nsid" = 4 := by decide
  have h2 : fieldOff false Layout.nvme_nvm_setbbtbl "spba" = 40 := by decide
  have h3 : fieldOff false Layout.nvme_nvm_setbbtbl "nlb" = 48 := by decide
  have h4 : fieldOff false Layout.nvme_nvm_setbbtbl "value" = 50 := by decide
  simp only [set_bb_tbl_command, h0, h1, h2, h3, h4, put_le_apply, zero_command]

/-- C13: for every erase request with `1 ≤ nr_ppas ≤ 65536` (namespace id a
32-bit and address a 64-bit value), the command that `nvme_nvm_erase_block`
hands to the transport has the erase opcode in byte 0, the caller's namespace
id in bytes 4 to 7, the request's address in bytes 40 to 47, `nr_ppas - 1` in
the 16-bit little-endian member at bytes 48 and 49, and zero in every other
byte; and the call returns what the transport returns for that command. -/
theorem erase_block_command_bytes (NVM_OP_ERASE : u8) (env : SyncEnv) (ns_id ppa nr_ppas : Nat)
    (hns : ns_id < 2 ^ 32) (hppa : ppa < 2 ^ 64) (h1 : 1 ≤ nr_ppas) (h2 : nr_ppas ≤ 65536) :
    erase_block_command NVM_OP_ERASE ns_id ppa nr_ppas 0 = NVM_OP_ERASE ∧
    get_le (erase_block_command NVM_OP_ERASE ns_id ppa nr_ppas) 4 4 = ns_id ∧
    get_le (erase_block_command NVM_OP_ERASE ns_id ppa nr_ppas) 40 8 = ppa ∧
    get_le (erase_block_command NVM_OP_ERASE ns_id ppa nr_ppas) 48 2 = nr_ppas - 1 ∧
    (∀ i, i ≠ 0 → ¬ (4 ≤ i ∧ i < 8) → ¬ (40 ≤ i ∧ i < 50) →
      erase_block_command NVM_OP_ERASE ns_id ppa nr_ppas i = 0) ∧
    nvme_nvm_erase_block NVM_OP_ERASE env ns_id ppa nr_ppas =
      env.submit (erase_block_command NVM_OP_ERASE ns_id ppa nr_ppas) := by
  have hlen := to_u16_pred nr_ppas h1 h2
  refine ⟨?_, ?_, ?_, ?_, ?_, rfl⟩
  · rw [erase_block_command_apply]
    apply Fin.ext
    simp [le_byte]
  · rw [get_le_of_bytes _ 4 ns_id 4]
    · rw [two_pow_32] at hns
      norm_num
      omega
    · intro j hj
      rw [erase_block_command_apply]
      have a1 : ¬ (48 ≤ 4 + j ∧ 4 + j < 48 + 2) := by omega
      have a2 : ¬ (40 ≤ 4 + j ∧ 4 + j < 40 + 8) := by omega
      have a3 : 4 ≤ 4 + j ∧ 4 + j < 4 + 4 := by omega
      rw [if_neg a1, if_neg a2, if_pos a3]
      simp [le_byte]
  · rw [get_le_of_bytes _ 40 ppa 8]
    · rw [two_pow_64] at hppa
      norm_num
      omega
    · intro j hj
      rw [erase_block_command_apply]
      have a1 : ¬ (48 ≤ 40 + j ∧ 40 + j < 48 + 2) := by omega
      have a2 : 40 ≤ 40 + j ∧ 40 + j < 40 + 8 := by omega
      rw [if_neg a1, if_pos a2]
      simp [le_byte]
  · rw [get_le_of_bytes _ 48 (nr_ppas - 1) 2]
    · norm_num
      omega
    · intro j hj
      rw [erase_block_command_apply]
      have a1 : 48 ≤ 48 + j ∧ 48 + j < 48 + 2 := by omega
      rw [if_pos a1, hlen]
      simp [le_byte]
  · intro i i0 i1 i2
    rw [erase_block_command_apply]
    have a1 : ¬ (48 ≤ i ∧ i < 48 + 2) := by omega
    have a2 : ¬ (40 ≤ i ∧ i < 40 + 8) := by omega
    have a3 : ¬ (4 ≤ i ∧ i < 4 + 4) := by omega
    have a4 : ¬ (0 ≤ i ∧ i < 0 + 1) := by omega
    rw [if_neg a1, if_neg a2, if_neg a3, if_neg a4]

/-- Witness for C13: an erase of 4 addresses encodes the run length 3. -/
theorem erase_block_command_bytes_witness :
    get_le (erase_block_command 0x90 1 0x1234 4) 48 2 = 4 - 1 ∧
    (∀ i, i ≠ 0 → ¬ (4 ≤ i ∧ i < 8) → ¬ (40 ≤ i ∧ i < 50) →
      erase_block_command 0x90 1 0x1234 4 i = 0) ∧
    nvme_nvm_erase_block 0x90 ⟨fun _ => 7⟩ 1 0x1234 4 = 7 :=
  have h := erase_block_command_bytes 0x90 ⟨fun _ => 7⟩ 1 0x1234 4 (by decide) (by decide)
    (by decide) (by decide)
  ⟨h.2.2.2.1, h.2.2.2.2.1, h.2.2.2.2.2⟩

/-- C14, the code at a failing transport: when `nvme_submit_sync_cmd` returns
the non-zero code 2, `nvme_nvm_set_bb_tbl` returns 2, which is not `-EIO`; in
general it returns whatever the transport returns. -/
theorem set_bb_tbl_returns_transport_code :
    nvme_nvm_set_bb_tbl ⟨fun _ => 2⟩ 1 (fun _ => 0) 1 0 = 2 ∧ (2 : Int) ≠ 0 ∧
    (2 : Int) ≠ - EIO ∧
    ∀ (env : SyncEnv) (ns_id : Nat) (ppas : Nat → Nat) (nr_ppas type : Int),
      nvme_nvm_set_bb_tbl env ns_id ppas nr_ppas type =
        env.submit (set_bb_tbl_command ns_id ppas nr_ppas type) :=
  ⟨rfl, by decide, by decide, fun _ _ _ _ _ => rfl⟩

/-- C15 as stated fails: with namespace id 1, byte 4 of the command, which is
none of the opcode byte, the address bytes, the run-length bytes and the value
byte, is 1 and not zero. -/
theorem set_bb_tbl_command_has_namespace_id :
    (4 : Nat) ≠ 0 ∧ ¬ (40 ≤ 4 ∧ 4 < 51) ∧
    set_bb_tbl_command 1 (fun _ => 0) 1 0 4 = 1 ∧
    set_bb_tbl_command 1 (fun _ => 0) 1 0 4 ≠ 0 := by
  decide

/-- C15 (as amended): for every address list, every count with
`1 ≤ nr_ppas ≤ 65536` and every status value in 0..255 (namespace id a 32-bit
and addresses 64-bit values), `nvme_nvm_set_bb_tbl` hands the transport one
command: opcode 0xf1 in byte 0, the caller's namespace id in bytes 4 to 7, the
first address of the list in bytes 40 to 47, `nr_ppas - 1` in the 16-bit
little-endian member at bytes 48 and 49, the status value in byte 50 and zero
in every other byte; a list with the same first address gives the same
command. -/
theorem set_bb_tbl_command_bytes (env : SyncEnv) (ns_id nr_ppas type : Nat) (ppas : Nat → Nat)
    (hns : ns_id < 2 ^ 32) (hppa : ppas 0 < 2 ^ 64) (h1 : 1 ≤ nr_ppas) (h2 : nr_ppas ≤ 65536)
    (ht : type ≤ 255) :
    (set_bb_tbl_command ns_id ppas nr_ppas type 0).val = 0xf1 ∧
    get_le (set_bb_tbl_command ns_id ppas nr_ppas type) 4 4 = ns_id ∧
    get_le (set_bb_tbl_command ns_id ppas nr_ppas type) 40 8 = ppas 0 ∧
    get_le (set_bb_tbl_command ns_id ppas nr_ppas type) 48 2 = nr_ppas - 1 ∧
    (set_bb_tbl_command ns_id ppas nr_ppas type 50).val = type ∧
    (∀ i, i ≠ 0 → ¬ (4 ≤ i ∧ i < 8) → ¬ (40 ≤ i ∧ i < 51) →
      set_bb_tbl_command ns_id ppas nr_ppas type i = 0) ∧
    (∀ other : Nat → Nat, other 0 = ppas 0 →
      set_bb_tbl_command ns_id other nr_ppas type =
        set_bb_tbl_command ns_id ppas nr_ppas type) ∧
    nvme_nvm_set_bb_tbl env ns_id ppas nr_ppas type =
      env.submit (set_bb_tbl_command ns_id ppas nr_ppas type) := by
  have hlen : to_u16 ((nr_ppas : Int) - 1) = nr_ppas - 1 := to_u16_pred nr_ppas h1 h2
  have hval : to_u8 (type : Int) = type := by
    unfold to_u8
    have h : (type : Int) % 256 = ((type : Nat) : Int) := by omega
    rw [h, Int.toNat_ofNat]
  refine ⟨?_, ?_, ?_, ?_, ?_, ?_, ?_, rfl⟩
  · rw [set_bb_tbl_command_apply]
    have a0 : ¬ (50 ≤ 0 ∧ 0 < 50 + 1) := by omega
    have a1 : ¬ (48 ≤ 0 ∧ 0 < 48 + 2) := by omega
    have a2 : ¬ (40 ≤ 0 ∧ 0 < 40 + 8) := by omega
    have a3 : ¬ (4 ≤ 0 ∧ 0 < 4 + 4) := by omega
    have a4 : 0 ≤ 0 ∧ 0 < 0 + 1 := by omega
    rw [if_neg a0, if_neg a1, if_neg a2, if_neg a3, if_pos a4]
    decide
  · rw [get_le_of_bytes _ 4 ns_id 4]
    · rw [two_pow_32] at hns
      norm_num
      omega
    · intro j hj
      rw [set_bb_tbl_command_apply]
      have a0 : ¬ (50 ≤ 4 + j ∧ 4 + j < 50 + 1) := by omega
      have a1 : ¬ (48 ≤ 4 + j ∧ 4 + j < 48 + 2) := by omega
      have a2 : ¬ (40 ≤ 4 + j ∧ 4 + j < 40 + 8) := by omega
      have a3 : 4 ≤ 4 + j ∧ 4 + j < 4 + 4 := by omega
      rw [if_neg a0, if_neg a1, if_neg a2, if_pos a3]
      simp [le_byte]
  · rw [get_le_of_bytes _ 40 (ppas 0) 8]
    · rw [two_pow_64] at hppa
      norm_num
      omega
    · intro j hj
      rw [set_bb_tbl_command_apply]
      have a0 : ¬ (50 ≤ 40 + j ∧ 40 + j < 50 + 1) := by omega
      have a1 : ¬ (48 ≤ 40 + j ∧ 40 + j < 48 + 2) := by omega
      have a2 : 40 ≤ 40 + j ∧ 40 + j < 40 + 8 := by omega
      rw [if_neg a0, if_neg a1, if_pos a2]
      simp [le_byte]
  · rw [get_le_of_bytes _ 48 (nr_ppas - 1) 2]
    · norm_num
      omega
    · intro j hj
      rw [set_bb_tbl_command_apply]
      have a0 : ¬ (50 ≤ 48 + j ∧ 48 + j < 50 + 1) := by omega
      have a1 : 48 ≤ 48 + j ∧ 48 + j < 48 + 2 := by omega
      rw [if_neg a0, if_pos a1, hlen]
      simp [le_byte]
  · rw [set_bb_tbl_command_apply, hval]
    simp [le_byte]
    omega
  · intro i i0 i1 i2
    rw [set_bb_tbl_command_apply]
    have a0 : ¬ (50 ≤ i ∧ i < 50 + 1) := by omega
    have a1 : ¬ (48 ≤ i ∧ i < 48 + 2) := by omega
    have a2 : ¬ (40 ≤ i ∧ i < 40 + 8) := by omega
    have a3 : ¬ (4 ≤ i ∧ i < 4 + 4) := by omega
    have a4 : ¬ (0 ≤ i ∧ i < 0 + 1) := by omega
    rw [if_neg a0, if_neg a1, if_neg a2, if_neg a3, if_neg a4]
  · intro other ho
    funext i
    rw [set_bb_tbl_command_apply, set_bb_tbl_command_apply, ho]

/-- Witness for C15: two addresses, status value 2, namespace id 1. -/
theorem set_bb_tbl_command_bytes_witness :
    (set_bb_tbl_command 1 (fun j => 0x1000 + j) (2 : Nat) (2 : Nat) 0).val = 0xf1 ∧
    get_le (set_bb_tbl_command 1 (fun j => 0x1000 + j) (2 : Nat) (2 : Nat)) 40 8 = 0x1000 + 0 ∧
    get_le (set_bb_tbl_command 1 (fun j => 0x1000 + j) (2 : Nat) (2 : Nat)) 48 2 = 2 - 1 :=
  have h := set_bb_tbl_command_bytes ⟨fun _ => 0⟩ 1 2 2 (fun j => 0x1000 + j) (by decide)
    (by decide) (by decide) (by decide) (by decide)
  ⟨h.1, h.2.2.1, h.2.2.2.1⟩

/-! ## I/O submission -/

/-- A 16-bit conversion, as an integer. -/
theorem to_u16_cast (x : Int) : ((to_u16 x : Nat) : Int) = x % 65536 := by
  unfold to_u16
  exact Int.toNat_of_nonneg (Int.emod_nonneg x (by decide))

/-- A 16-bit conversion fits 16 bits. -/
theorem to_u16_lt (x : Int) : to_u16 x < 65536 := by
  have h1 := to_u16_cast x
  have h2 : x % 65536 < 65536 := Int.emod_lt_of_pos x (by decide)
  omega

/-- The command that `nvme_nvm_rqtocmd` leaves in `c`, byte by byte. -/
theorem nvme_nvm_rqtocmd_apply (HBW HBR : u8) (block_nr : Nat → Nat) (rqd : Generic.nvm_rq)
    (ns_id : Nat) (c : Nat → u8) (i : Nat) :
    nvme_nvm_rqtocmd HBW HBR block_nr rqd ns_id c i =
      if (rqd.opcode = HBW ∨ rqd.opcode = HBR) ∧ 56 ≤ i ∧ i < 56 + 8 then
        le_byte (block_nr rqd.bi_sector) (i - 56)
      else if 48 ≤ i ∧ i < 48 + 2 then le_byte (to_u16 ((rqd.nr_ppas : Int) - 1)) (i - 48)
      else if 50 ≤ i ∧ i < 50 + 2 then le_byte rqd.flags (i - 50)
      else if 16 ≤ i ∧ i < 16 + 8 then le_byte rqd.dma_meta_list (i - 16)
      else if 40 ≤ i ∧ i < 40 + 8 then le_byte rqd.ppa (i - 40)
      else if 4 ≤ i ∧ i < 4 + 4 then le_byte ns_id (i - 4)
      else if 0 ≤ i ∧ i < 0 + 1 then le_byte rqd.opcode.val (i - 0)
      else c i := by
  have h0 : fieldOff false Layout.nvme_nvm_ph_rw "opcode" = 0 := by decide
  have h1 : fieldOff false Layout.nvme_nvm_ph_rw "nsid" = 4 := by decide
  have h2 : fieldOff false Layout.nvme_nvm_ph_rw "spba" = 40 := by decide
  have h3 : fieldOff false Layout.nvme_nvm_ph_rw "metadata" = 16 := by decide
  have h4 : fieldOff false Layout.nvme_nvm_ph_rw "control" = 50 := by decide
  have h5 : fieldOff false Layout.nvme_nvm_ph_rw "length" = 48 := by decide
  have h6 : fieldOff false Layout.nvme_nvm_hb_rw "slba" = 56 := by decide
  simp only [nvme_nvm_rqtocmd, h0, h1, h2, h3, h4, h5, h6]
  by_cases hb : rqd.opcode = HBW ∨ rqd.opcode = HBR
  · simp only [hb, if_true, true_and, put_le_apply]
  · simp only [hb, if_false, false_and, put_le_apply]

/-- C18: for every generic I/O request (namespace id a 32-bit value, addresses
64-bit values, flags a 16-bit value), the command that `nvme_nvm_rqtocmd`
builds in a zeroed buffer has the request's opcode in byte 0, the caller's
namespace id in bytes 4 to 7, the request's physical address in bytes 40 to
47, its metadata address in bytes 16 to 23, its flags in the 16-bit control
member at bytes 50 and 51, and `nr_ppas - 1` modulo `2 ^ 16` in the 16-bit
length member at bytes 48 and 49; the last 8 bytes (offset 56) hold the block
address computed from the position of the request's buffer when the opcode is
the host-block write or the host-block read, and are zero for every other
opcode. -/
theorem rqtocmd_command_bytes (NVM_OP_HBWRITE NVM_OP_HBREAD : u8) (nvme_block_nr : Nat → Nat)
    (rqd : Generic.nvm_rq) (ns_id : Nat) (hns : ns_id < 2 ^ 32) (hppa : rqd.ppa < 2 ^ 64)
    (hmeta : rqd.dma_meta_list < 2 ^ 64) (hflags : rqd.flags < 2 ^ 16)
    (hlba : nvme_block_nr rqd.bi_sector < 2 ^ 64) :
    nvme_nvm_rqtocmd NVM_OP_HBWRITE NVM_OP_HBREAD nvme_block_nr rqd ns_id zero_command 0 =
      rqd.opcode ∧
    get_le (nvme_nvm_rqtocmd NVM_OP_HBWRITE NVM_OP_HBREAD nvme_block_nr rqd ns_id
      zero_command) 4 4 = ns_id ∧
    get_le (nvme_nvm_rqtocmd NVM_OP_HBWRITE NVM_OP_HBREAD nvme_block_nr rqd ns_id
      zero_command) 40 8 = rqd.ppa ∧
    get_le (nvme_nvm_rqtocmd NVM_OP_HBWRITE NVM_OP_HBREAD nvme_block_nr rqd ns_id
      zero_command) 16 8 = rqd.dma_meta_list ∧
    get_le (nvme_nvm_rqtocmd NVM_OP_HBWRITE NVM_OP_HBREAD nvme_block_nr rqd ns_id
      zero_command) 50 2 = rqd.flags ∧
    ((get_le (nvme_nvm_rqtocmd NVM_OP_HBWRITE NVM_OP_HBREAD nvme_block_nr rqd ns_id
      zero_command) 48 2 : Nat) : Int) = ((rqd.nr_ppas : Int) - 1) % 2 ^ 16 ∧
    (rqd.opcode = NVM_OP_HBWRITE ∨ rqd.opcode = NVM_OP_HBREAD →
      get_le (nvme_nvm_rqtocmd NVM_OP_HBWRITE NVM_OP_HBREAD nvme_block_nr rqd ns_id
        zero_command) 56 8 = nvme_block_nr rqd.bi_sector) ∧
    (¬ (rqd.opcode = NVM_OP_HBWRITE ∨ rqd.opcode = NVM_OP_HBREAD) →
      ∀ i, 56 ≤ i → i < 64 →
        nvme_nvm_rqtocmd NVM_OP_HBWRITE NVM_OP_HBREAD nvme_block_nr rqd ns_id
          zero_command i = 0) := by
  rw [two_pow_32] at hns
  rw [two_pow_64] at hppa hmeta hlba
  have hflags' : rqd.flags < 65536 := by simpa using hflags
  refine ⟨?_, ?_, ?_, ?_, ?_, ?_, ?_, ?_⟩
  · rw [nvme_nvm_rqtocmd_apply]
    have a0 : ¬ ((rqd.opcode = NVM_OP_HBWRITE ∨ rqd.opcode = NVM_OP_HBREAD) ∧
        56 ≤ 0 ∧ 0 < 56 + 8) := by omega
    have a1 : ¬ (48 ≤ 0 ∧ 0 < 48 + 2) := by omega
    have a2 : ¬ (50 ≤ 0 ∧ 0 < 50 + 2) := by omega
    have a3 : ¬ (16 ≤ 0 ∧ 0 < 16 + 8) := by omega
    have a4 : ¬ (40 ≤ 0 ∧ 0 < 40 + 8) := by omega
    have a5 : ¬ (4 ≤ 0 ∧ 0 < 4 + 4) := by omega
    have a6 : 0 ≤ 0 ∧ 0 < 0 + 1 := by omega
    rw [if_neg a0, if_neg a1, if_neg a2, if_neg a3, if_neg a4, if_neg a5, if_pos a6]
    apply Fin.ext
    simp [le_byte]
  · rw [get_le_of_bytes _ 4 ns_id 4]
    · norm_num
      omega
    · intro j hj
      rw [nvme_nvm_rqtocmd_apply]
      have a0 : ¬ ((rqd.opcode = NVM_OP_HBWRITE ∨ rqd.opcode = NVM_OP_HBREAD) ∧
          56 ≤ 4 + j ∧ 4 + j < 56 + 8) := by omega
      have a1 : ¬ (48 ≤ 4 + j ∧ 4 + j < 48 + 2) := by omega
      have a2 : ¬ (50 ≤ 4 + j ∧ 4 + j < 50 + 2) := by omega
      have a3 : ¬ (16 ≤ 4 + j ∧ 4 + j < 16 + 8) := by omega
      have a4 : ¬ (40 ≤ 4 + j ∧ 4 + j < 40 + 8) := by omega
      have a5 : 4 ≤ 4 + j ∧ 4 + j < 4 + 4 := by omega
      rw [if_neg a0, if_neg a1, if_neg a2, if_neg a3, if_neg a4, if_pos a5]
      simp [le_byte]
  · rw [get_le_of_bytes _ 40 rqd.ppa 8]
    · norm_num
      omega
    · intro j hj
      rw [nvme_nvm_rqtocmd_apply]
      have a0 : ¬ ((rqd.opcode = NVM_OP_HBWRITE ∨ rqd.opcode = NVM_OP_HBREAD) ∧
          56 ≤ 40 + j ∧ 40 + j < 56 + 8) := by omega
      have a1 : ¬ (48 ≤ 40 + j ∧ 40 + j < 48 + 2) := by omega
      have a2 : ¬ (50 ≤ 40 + j ∧ 40 + j < 50 + 2) := by omega
      have a3 : ¬ (16 ≤ 40 + j ∧ 40 + j < 16 + 8) := by omega
      have a4 : 40 ≤ 40 + j ∧ 40 + j < 40 + 8 := by omega
      rw [if_neg a0, if_neg a1, if_neg a2, if_neg a3, if_pos a4]
      simp [le_byte]
  · rw [get_le_of_bytes _ 16 rqd.dma_meta_list 8]
    · norm_num
      omega
    · intro j hj
      rw [nvme_nvm_rqtocmd_apply]
      have a0 : ¬ ((rqd.opcode = NVM_OP_HBWRITE ∨ rqd.opcode = NVM_OP_HBREAD) ∧
          56 ≤ 16 + j ∧ 16 + j < 56 + 8) := by omega
      have a1 : ¬ (48 ≤ 16 + j ∧ 16 + j < 48 + 2) := by omega
      have a2 : ¬ (50 ≤ 16 + j ∧ 16 + j < 50 + 2) := by omega
      have a3 : 16 ≤ 16 + j ∧ 16 + j < 16 + 8 := by omega
      rw [if_neg a0, if_neg a1, if_neg a2, if_pos a3]
      simp [le_byte]
  · rw [get_le_of_bytes _ 50 rqd.flags 2]
    · norm_num
      omega
    · intro j hj
      rw [nvme_nvm_rqtocmd_apply]
      have a0 : ¬ ((rqd.opcode = NVM_OP_HBWRITE ∨ rqd.opcode = NVM_OP_HBREAD) ∧
          56 ≤ 50 + j ∧ 50 + j < 56 + 8) := by omega
      have a1 : ¬ (48 ≤ 50 + j ∧ 50 + j < 48 + 2) := by omega
      have a2 : 50 ≤ 50 + j ∧ 50 + j < 50 + 2 := by omega
      rw [if_neg a0, if_neg a1, if_pos a2]
      simp [le_byte]
  · rw [get_le_of_bytes _ 48 (to_u16 ((rqd.nr_ppas : Int) - 1)) 2]
    · have hlt := to_u16_lt ((rqd.nr_ppas : Int) - 1)
      have hc := to_u16_cast ((rqd.nr_ppas : Int) - 1)
      have e : to_u16 ((rqd.nr_ppas : Int) - 1) % 256 ^ 2 = to_u16 ((rqd.nr_ppas : Int) - 1) := by
        norm_num
        omega
      rw [e, hc]
      norm_num
    · intro j hj
      rw [nvme_nvm_rqtocmd_apply]
      have a0 : ¬ ((rqd.opcode = NVM_OP_HBWRITE ∨ rqd.opcode = NVM_OP_HBREAD) ∧
          56 ≤ 48 + j ∧ 48 + j < 56 + 8) := by omega
      have a1 : 48 ≤ 48 + j ∧ 48 + j < 48 + 2 := by omega
      rw [if_neg a0, if_pos a1]
      simp [le_byte]
  · intro hb
    rw [get_le_of_bytes _ 56 (nvme_block_nr rqd.bi_sector) 8]
    · norm_num
      omega
    · intro j hj
      rw [nvme_nvm_rqtocmd_apply]
      have a0 : (rqd.opcode = NVM_OP_HBWRITE ∨ rqd.opcode = NVM_OP_HBREAD) ∧
          56 ≤ 56 + j ∧ 56 + j < 56 + 8 := ⟨hb, by omega, by omega⟩
      rw [if_pos a0]
      simp [le_byte]
  · intro hb i i1 i2
    rw [nvme_nvm_rqtocmd_apply]
    have a0 : ¬ ((rqd.opcode = NVM_OP_HBWRITE ∨ rqd.opcode = NVM_OP_HBREAD) ∧
        56 ≤ i ∧ i < 56 + 8) := fun h => hb h.1
    have a1 : ¬ (48 ≤ i ∧ i < 48 + 2) := by omega
    have a2 : ¬ (50 ≤ i ∧ i < 50 + 2) := by omega
    have a3 : ¬ (16 ≤ i ∧ i < 16 + 8) := by omega
    have a4 : ¬ (40 ≤ i ∧ i < 40 + 8) := by omega
    have a5 : ¬ (4 ≤ i ∧ i < 4 + 4) := by omega
    have a6 : ¬ (0 ≤ i ∧ i < 0 + 1) := by omega
    rw [if_neg a0, if_neg a1, if_neg a2, if_neg a3, if_neg a4, if_neg a5, if_neg a6]
    rfl

/-- Witness for C18: a host-block write, whose last 8 bytes hold the block
address, here sector 64 shifted right by 3. -/
theorem rqtocmd_command_bytes_witness :
    nvme_nvm_rqtocmd 0x81 0x02 (fun s => s / 8) io_rq_hbwrite 1 zero_command 0 = 0x81 ∧
    get_le (nvme_nvm_rqtocmd 0x81 0x02 (fun s => s / 8) io_rq_hbwrite 1 zero_command) 56 8 =
      io_rq_hbwrite.bi_sector / 8 :=
  have h := rqtocmd_command_bytes 0x81 0x02 (fun s => s / 8) io_rq_hbwrite 1 (by decide)
    (by decide) (by decide) (by decide) (by decide)
  ⟨h.1, h.2.2.2.2.2.2.1 (Or.inl rfl)⟩

/-- Two members with the same bytes have the same value. -/
theorem get_le_congr (f g : Nat → u8) (off off' : Nat) :
    ∀ w, (∀ j, j < w → f (off + j) = g (off' + j)) → get_le f off w = get_le g off' w := by
  intro w
  induction w with
  | zero => intro _; rfl
  | succ w ih =>
    intro h
    rw [get_le, get_le, ih (fun j hj => h j (by omega)), h w (by omega)]

/-- C17: for every request that `nvme_nvm_submit_io` submits (request handle
`tag` and buffer `b` allocated), the call returns 0 having handed the request
to the transport once, with the command at the start of `b` and the completion
entry right behind it; and one completion signal of the transport, with
completion entry `cqe` and error code `error`, makes `nvme_nvm_end_io` set
`ppa_status` to the little-endian value of the 64-bit result member of `cqe`,
call the completion notification of the generic layer once, with `error`,
release the buffer `b` once and the request handle once, in this order and
nothing else. -/
theorem submit_io_completes_once (NVM_OP_HBWRITE NVM_OP_HBREAD : u8) (nvme_block_nr : Nat → Nat)
    (env : IoEnv) (ns_id : Nat) (rqd : Generic.nvm_rq) (w : IoWorld) (tag b : Nat)
    (cqe : Nat → u8) (error : Int)
    (hrq : env.blk_mq_alloc_request = some tag) (hbuf : env.kzalloc = some b) :
    ∃ rq w₁,
      nvme_nvm_submit_io NVM_OP_HBWRITE NVM_OP_HBREAD nvme_block_nr env ns_id rqd w =
        (0, w₁, some rq) ∧
      rq.tag = tag ∧ rq.cmd = ⟨b, 0⟩ ∧ rq.special = some ⟨b, 64⟩ ∧
      w₁.events = w.events ++ [IoEvent.blk_execute_rq_nowait rq] ∧
      (transport_complete rq cqe error w₁).ppa_status = get_le cqe 0 8 ∧
      (transport_complete rq cqe error w₁).events =
        w₁.events ++ [IoEvent.nvm_end_io error, IoEvent.kfree ⟨b, 0⟩,
          IoEvent.blk_mq_free_request tag] ∧
      io_notifications (transport_complete rq cqe error w₁).events =
        io_notifications w.events ++ [error] ∧
      io_kfrees (transport_complete rq cqe error w₁).events = io_kfrees w.events ++ [⟨b, 0⟩] ∧
      io_request_frees (transport_complete rq cqe error w₁).events =
        io_request_frees w.events ++ [tag] := by
  have h64 : sizeof_nvme_nvm_command = 64 := by decide
  have h16 : sizeofStruct false Layout.nvme_nvm_completion = 16 := by decide
  have hres : fieldOff false Layout.nvme_nvm_completion "result" = 0 := by decide
  have hev : ∀ (w₁ : IoWorld) (rq : request),
      (transport_complete rq cqe error w₁).events =
        w₁.events ++ [IoEvent.nvm_end_io error, IoEvent.kfree rq.cmd,
          IoEvent.blk_mq_free_request rq.tag] := by
    intro w₁ rq
    cases hsp : rq.special <;>
      simp [transport_complete, nvme_nvm_end_io, IoWorld.emit, hsp]
  refine ⟨{ tag := tag, cmd := ⟨b, 0⟩, cmd_len := 64, special := some ⟨b, 64⟩ },
    (((w.setBuf b (fun _ => 0)).setBuf b
      (nvme_nvm_rqtocmd NVM_OP_HBWRITE NVM_OP_HBREAD nvme_block_nr rqd ns_id
        ((w.setBuf b (fun _ => 0)).mem b))).emit
      (IoEvent.blk_execute_rq_nowait
        { tag := tag, cmd := ⟨b, 0⟩, cmd_len := 64, special := some ⟨b, 64⟩ })),
    ?_, rfl, rfl, rfl, ?_, ?_, ?_, ?_, ?_, ?_⟩
  · simp only [nvme_nvm_submit_io, hrq, hbuf, h64]
  · simp [IoWorld.emit, IoWorld.setBuf]
  · simp only [transport_complete, nvme_nvm_end_io, IoWorld.emit, cqe_result, h16, hres]
    apply get_le_congr
    intro j hj
    have a : 64 ≤ 64 + 0 + j ∧ 64 + 0 + j < 64 + 16 := by omega
    simp only [true_and, a, and_self, if_true]
    congr 1
    omega
  · rw [hev]
  · rw [hev]
    simp [io_notifications, IoWorld.emit, IoWorld.setBuf, List.filterMap_append]
  · rw [hev]
    simp [io_kfrees, IoWorld.emit, IoWorld.setBuf, List.filterMap_append]
  · rw [hev]
    simp [io_request_frees, IoWorld.emit, IoWorld.setBuf, List.filterMap_append]

/-- Witness for C17: a physical read submitted in an empty world, completed
with result `0x0201` and error code 0. -/
theorem submit_io_completes_once_witness :
    ∃ rq w₁,
      nvme_nvm_submit_io 0x81 0x02 (fun s => s / 8) io_env_ok 1 io_rq_pread io_world_empty =
        (0, w₁, some rq) ∧
      (transport_complete rq io_cqe 0 w₁).ppa_status = get_le io_cqe 0 8 ∧
      get_le io_cqe 0 8 = 0x0201 ∧
      io_notifications (transport_complete rq io_cqe 0 w₁).events = [0] ∧
      io_kfrees (transport_complete rq io_cqe 0 w₁).events = [⟨9, 0⟩] ∧
      io_request_frees (transport_complete rq io_cqe 0 w₁).events = [5] := by
  obtain ⟨rq, w₁, h1, _, _, _, _, h6, _, h8, h9, h10⟩ :=
    submit_io_completes_once 0x81 0x02 (fun s => s / 8) io_env_ok 1 io_rq_pread io_world_empty
      5 9 io_cqe 0 rfl rfl
  exact ⟨rq, w₁, h1, h6, by decide, by simpa [io_notifications, io_world_empty] using h8,
    by simpa [io_kfrees, io_world_empty] using h9,
    by simpa [io_request_frees, io_world_empty] using h10⟩

end LightNVM
